import Mathlib

/-!
# TCPR: checkpoint state model of the application library and the control tool

A shallow embedding of `lib/application.c` and `src/control.c`.

* Machine integers are natural numbers reduced modulo the width of the C type.
* The shared record `struct tcpr` is a region of bytes; its members are read and
  written through their offsets, in the byte order of the host.
* System calls act on an explicit `World`: descriptor table, files, mappings, a
  trace of the calls made so far, and an environment that decides how each call
  returns.
-/

namespace TCPR

/-! ## Bytes and byte order -/

/-- One byte of memory. -/
abbrev Byte := Fin 256

/-- The low eight bits of a number, as a byte. -/
def byte (n : Nat) : Byte := ⟨n % 256, Nat.mod_lt n (by decide)⟩

/-- Exchange the two bytes of a 16-bit word. -/
def bswap16 (x : Nat) : Nat := x % 256 * 256 + x / 256 % 256

/-- Reverse the four bytes of a 32-bit word. -/
def bswap32 (x : Nat) : Nat :=
  x % 256 * 16777216 + x / 256 % 256 * 65536 + x / 65536 % 256 * 256 + x / 16777216 % 256

/-- Number of values of `uint32_t`. -/
def UINT32_MOD : Nat := 4294967296

/-- The constant `INT_MAX` of `limits.h` for a 32-bit `int`. -/
def INT_MAX : Int := 2147483647

/-- Modelled from the spec: the declarations of `tcpr/types.h` and
`tcpr/application.h`, which are not among the sources. The record `struct tcpr`
holds the application-owned group `saved` (`ack`, `safe`, `peer.mss`, `peer.ws`,
`peer.sack_permitted`, `done_reading`, `done_writing`) and the filter-owned
members (`delta`, `ack`, `fin`, `have_fin`, `seq`, `win`, `peer.ack`,
`peer.have_ack`, `peer.fin`, `peer.have_fin`, `peer.win`, `done`). Every member
is given by its byte offset from the start of the record; `ack`, `safe`, `fin`,
`seq` and `delta` are 32 bits wide, `win` and `mss` 16 bits, the others one
byte. The two setup flags are bit masks. The byte order of the host is part of
the target as well. -/
structure Target where
  little_endian : Bool
  TCPR_CONNECTION_CREATE : Nat
  TCPR_CONNECTION_FILTER : Nat
  sizeof_tcpr : Nat
  saved : Nat
  sizeof_saved : Nat
  saved_ack : Nat
  saved_safe : Nat
  saved_peer_mss : Nat
  saved_peer_ws : Nat
  saved_peer_sack_permitted : Nat
  saved_done_reading : Nat
  saved_done_writing : Nat
  delta : Nat
  ack : Nat
  fin : Nat
  have_fin : Nat
  seq : Nat
  win : Nat
  peer_ack : Nat
  peer_have_ack : Nat
  peer_fin : Nat
  peer_have_fin : Nat
  peer_win : Nat
  done : Nat

/-- Conversion `ntohl` of a 32-bit word from network to host byte order. -/
def ntohl (T : Target) (x : Nat) : Nat := if T.little_endian then bswap32 x else x

/-- Conversion `htonl` of a 32-bit word from host to network byte order. -/
def htonl (T : Target) (x : Nat) : Nat := if T.little_endian then bswap32 x else x

/-- Conversion `ntohs` of a 16-bit word from network to host byte order. -/
def ntohs (T : Target) (x : Nat) : Nat := if T.little_endian then bswap16 x else x

/-- Conversion `htons` of a 16-bit word from host to network byte order. -/
def htons (T : Target) (x : Nat) : Nat := if T.little_endian then bswap16 x else x

/-! ## Memory regions -/

/-- A region of memory: the byte found at each offset. -/
abbrev Region := Nat → Byte

/-- The region a newly created, size-fixed backing file reads as. -/
def zero_region : Region := fun _ => 0

/-- Read a one-byte member. -/
def load8 (m : Region) (o : Nat) : Nat := (m o).val

/-- Write a one-byte member. -/
def store8 (m : Region) (o : Nat) (v : Nat) : Region := Function.update m o (byte v)

/-- Read a 16-bit member in the byte order of the host. -/
def load16 (T : Target) (m : Region) (o : Nat) : Nat :=
  if T.little_endian then (m o).val + 256 * (m (o + 1)).val
  else 256 * (m o).val + (m (o + 1)).val

/-- Read a 32-bit member in the byte order of the host. -/
def load32 (T : Target) (m : Region) (o : Nat) : Nat :=
  if T.little_endian then
    (m o).val + 256 * (m (o + 1)).val + 65536 * (m (o + 2)).val + 16777216 * (m (o + 3)).val
  else
    16777216 * (m o).val + 65536 * (m (o + 1)).val + 256 * (m (o + 2)).val + (m (o + 3)).val

/-- Write a 32-bit member in the byte order of the host. -/
def store32 (T : Target) (m : Region) (o : Nat) (v : Nat) : Region :=
  if T.little_endian then
    store8 (store8 (store8 (store8 m o v) (o + 1) (v / 256)) (o + 2) (v / 65536))
      (o + 3) (v / 16777216)
  else
    store8 (store8 (store8 (store8 m o (v / 16777216)) (o + 1) (v / 65536)) (o + 2) (v / 256))
      (o + 3) v

/-- The `n` bytes of a region that start at offset `o`. -/
def block (m : Region) (o n : Nat) : List Byte := (List.range n).map (fun i => m (o + i))

/-- Copy a list of bytes into a region from offset `o` on. -/
def blit (m : Region) (o : Nat) (bs : List Byte) : Region :=
  fun i => if o ≤ i ∧ i < o + bs.length then bs.getD (i - o) (m i) else m i

/-- The region a file of the given content is mapped as. -/
def region_of (content : List Byte) : Region := fun i => content.getD i 0

/-- Content of a file after `ftruncate` to `n` bytes: cut, or extended by zero bytes. -/
def resize (content : List Byte) (n : Nat) : List Byte :=
  content.take n ++ List.replicate (n - content.length) 0

/-! ## The operating system -/

/-- What an open descriptor refers to. -/
inductive FdObj where
  | sock : FdObj
  | file (path : String) : FdObj
deriving DecidableEq, Repr

/-- A system call made by the program, with its arguments and its result. -/
inductive Event where
  | socket (ret : Int) : Event
  | unlink (path : String) : Event
  | bind (fd : Int) (path : String) (ret : Int) : Event
  | open_file (path : String) (o_creat : Bool) (ret : Int) : Event
  | creat (path : String) (ret : Int) : Event
  | ftruncate (fd : Int) (length : Nat) (ret : Int) : Event
  | mmap (fd : Int) (length : Nat) (ret : Int) : Event
  | munmap (addr : Int) (length : Nat) : Event
  | close (fd : Int) (ret : Int) : Event
  | read (fd : Int) (count : Nat) (ret : Int) : Event
  | write (fd : Int) (count : Nat) (ret : Int) : Event
  | sendto (fd : Int) (path : String) (count : Nat) (ret : Int) : Event
deriving DecidableEq, Repr

/-- State of the process and of the system around it. `env k` is what the
environment answers to the system call made when `k` calls are in the trace:
a negative answer is a failure, a non-negative one is the descriptor or
address handed out, or the result of `sendto`. A mapping holds the bytes the
process sees at an address; it starts as the content of the mapped file, and
the write-back of a shared mapping to its file is left out. -/
structure World where
  fdtab : Int → Option FdObj
  files : String → Option (List Byte)
  mem : Int → Option Region
  env : Nat → Int
  log : List Event

/-- The null pointer. -/
def NULL : Int := 0

/-- The failure value `MAP_FAILED` of `mmap`, which is `(void *) -1`. -/
def MAP_FAILED : Int := -1

/-- The address family `AF_UNIX`. -/
def AF_UNIX : Nat := 1

/-- The answer of the environment to the next system call. -/
def World.answer (w : World) : Int := w.env w.log.length

/-- The call `socket(AF_UNIX, SOCK_DGRAM, 0)`: a descriptor not in use, or -1. -/
def sys_socket (w : World) : Int × World :=
  let r := w.answer
  if 0 ≤ r ∧ (w.fdtab r).isNone then
    (r, { w with fdtab := Function.update w.fdtab r (some FdObj.sock),
                 log := w.log ++ [Event.socket r] })
  else (-1, { w with log := w.log ++ [Event.socket (-1)] })

/-- The call `unlink(path)`; its result is never inspected by the program. -/
def sys_unlink (w : World) (path : String) : World :=
  { w with files := Function.update w.files path none, log := w.log ++ [Event.unlink path] }

/-- The call `bind(fd, address, size)` on a local datagram socket. -/
def sys_bind (w : World) (fd : Int) (path : String) : Int × World :=
  let r := if w.answer < 0 then -1 else 0
  (r, { w with log := w.log ++ [Event.bind fd path r] })

/-- The call `open(path, O_RDWR [| O_CREAT], 0600)`, also used for `O_RDONLY`:
fails when the environment says so or when the file is absent and may not be
created; otherwise hands out a descriptor not in use. -/
def sys_open (w : World) (path : String) (o_creat : Bool) : Int × World :=
  let r := w.answer
  if 0 ≤ r ∧ (w.fdtab r).isNone ∧ (o_creat = true ∨ (w.files path).isSome) then
    (r, { w with fdtab := Function.update w.fdtab r (some (FdObj.file path)),
                 files := Function.update w.files path (some ((w.files path).getD [])),
                 log := w.log ++ [Event.open_file path o_creat r] })
  else (-1, { w with log := w.log ++ [Event.open_file path o_creat (-1)] })

/-- The call `creat(path, 0600)`: the file is created or emptied. -/
def sys_creat (w : World) (path : String) : Int × World :=
  let r := w.answer
  if 0 ≤ r ∧ (w.fdtab r).isNone then
    (r, { w with fdtab := Function.update w.fdtab r (some (FdObj.file path)),
                 files := Function.update w.files path (some []),
                 log := w.log ++ [Event.creat path r] })
  else (-1, { w with log := w.log ++ [Event.creat path (-1)] })

/-- The call `ftruncate(fd, length)`. -/
def sys_ftruncate (w : World) (fd : Int) (length : Nat) : Int × World :=
  match w.fdtab fd with
  | some (FdObj.file path) =>
    if 0 ≤ w.answer then
      (0, { w with files := Function.update w.files path
                              (some (resize ((w.files path).getD []) length)),
                   log := w.log ++ [Event.ftruncate fd length 0] })
    else (-1, { w with log := w.log ++ [Event.ftruncate fd length (-1)] })
  | _ => (-1, { w with log := w.log ++ [Event.ftruncate fd length (-1)] })

/-- The call `mmap(NULL, length, PROT_READ | PROT_WRITE, MAP_SHARED, fd, 0)`:
a positive address that is not yet mapped, or `MAP_FAILED`. -/
def sys_mmap (w : World) (fd : Int) (length : Nat) : Int × World :=
  let r := w.answer
  match w.fdtab fd with
  | some (FdObj.file path) =>
    if 0 < r ∧ (w.mem r).isNone then
      (r, { w with mem := Function.update w.mem r (some (region_of ((w.files path).getD []))),
                   log := w.log ++ [Event.mmap fd length r] })
    else (MAP_FAILED, { w with log := w.log ++ [Event.mmap fd length MAP_FAILED] })
  | _ => (MAP_FAILED, { w with log := w.log ++ [Event.mmap fd length MAP_FAILED] })

/-- The call `munmap(addr, length)`. -/
def sys_munmap (w : World) (addr : Int) (length : Nat) : World :=
  { w with mem := Function.update w.mem addr none, log := w.log ++ [Event.munmap addr length] }

/-- The call `close(fd)`: the descriptor is released whatever the result. -/
def sys_close (w : World) (fd : Int) : Int × World :=
  let r := if w.answer < 0 then -1 else 0
  (r, { w with fdtab := Function.update w.fdtab fd none, log := w.log ++ [Event.close fd r] })

/-- The call `sendto(fd, message, count, 0, address, size)`: the environment
decides the result. -/
def sys_sendto (w : World) (fd : Int) (path : String) (count : Nat) : Int × World :=
  (w.answer, { w with log := w.log ++ [Event.sendto fd path count w.answer] })

/-- The call `read(fd, buf, count)` at the start of a file: the bytes read (at
most `count`, fewer when the file is shorter), or none on failure. The program
reads each descriptor once, so the file offset is zero. -/
def sys_read (w : World) (fd : Int) (count : Nat) : Option (List Byte) × World :=
  match w.fdtab fd with
  | some (FdObj.file path) =>
    if 0 ≤ w.answer then
      let bs := ((w.files path).getD []).take count
      (some bs, { w with log := w.log ++ [Event.read fd count bs.length] })
    else (none, { w with log := w.log ++ [Event.read fd count (-1)] })
  | _ => (none, { w with log := w.log ++ [Event.read fd count (-1)] })

/-- The call `write(fd, buf, count)` at the start of a file just emptied by
`creat`: the environment decides how many of the bytes are accepted (a negative
answer is a failure, a larger one is cut to `count`). -/
def sys_write (w : World) (fd : Int) (bs : List Byte) : Int × World :=
  match w.fdtab fd with
  | some (FdObj.file path) =>
    if 0 ≤ w.answer then
      let k := min w.answer.toNat bs.length
      (k, { w with files := Function.update w.files path
                              (some (bs.take k ++ ((w.files path).getD []).drop k)),
                   log := w.log ++ [Event.write fd bs.length k] })
    else (-1, { w with log := w.log ++ [Event.write fd bs.length (-1)] })
  | _ => (-1, { w with log := w.log ++ [Event.write fd bs.length (-1)] })

/-- Number of `sendto` calls in a trace: the notifications attempted. -/
def notifications (log : List Event) : Nat :=
  (log.filter (fun e => match e with | Event.sendto _ _ _ _ => true | _ => false)).length

/-- Number of `close` calls on a descriptor in a trace. -/
def closes (fd : Int) (log : List Event) : Nat :=
  (log.filter (fun e => match e with | Event.close f _ => decide (f = fd) | _ => false)).length

/-- Number of `munmap` calls in a trace. -/
def unmaps (log : List Event) : Nat :=
  (log.filter (fun e => match e with | Event.munmap _ _ => true | _ => false)).length

/-- Number of `close` calls in a trace, on any descriptor. -/
def all_closes (log : List Event) : Nat :=
  (log.filter (fun e => match e with | Event.close _ _ => true | _ => false)).length

/-! ## Rendezvous naming (`lib/application.c`) -/

/-- The conversion `%d` of `printf` (`PRId16` is `d`): the decimal digits of an
`int`, with a minus sign for a negative one. -/
def printf_d (i : Int) : String :=
  match i with
  | Int.ofNat n => Nat.repr n
  | Int.negSucc n => "-" ++ Nat.repr (n + 1)

/-- The format `state_path_format`, applied as `sprintf` does: `%s` takes the
host text and each `PRId16` an `int`. -/
def state_path_format (peer_host : String) (a b : Int) : String :=
  "/var/tmp/tcpr-" ++ peer_host ++ "-" ++ printf_d a ++ "-" ++ printf_d b ++ ".state"

/-- The format `control_path_format`, applied as `sprintf` does. -/
def control_path_format (peer_host : String) (a b : Int) : String :=
  "/var/tmp/tcpr-" ++ peer_host ++ "-" ++ printf_d a ++ "-" ++ printf_d b ++ ".ctl"

/-- The call `inet_ntop(AF_INET, &peer_address, host, sizeof(host))`: the four
bytes of the address, which is held in network byte order, in decimal and
separated by dots. -/
def inet_ntop (T : Target) (peer_address : Nat) : String :=
  let h := ntohl T peer_address
  Nat.repr (h / 16777216 % 256) ++ "." ++ Nat.repr (h / 65536 % 256) ++ "." ++
    Nat.repr (h / 256 % 256) ++ "." ++ Nat.repr (h % 256)

/-- The path that `open_state` builds with `sprintf`. Arguments of type
`uint16_t` are promoted to `int`. -/
def state_path (T : Target) (peer_host : String) (peer_port port : Nat) : String :=
  state_path_format peer_host (Int.ofNat (ntohs T peer_port)) (Int.ofNat (ntohs T port))

/-- The local socket address `struct sockaddr_un`. -/
structure sockaddr_un where
  sun_family : Nat
  sun_path : String
deriving DecidableEq, Repr

/-- The connection handle `struct tcpr_connection`: the pointer to the mapped
record, the control descriptor and the control address. -/
structure tcpr_connection where
  state : Int
  control_socket : Int
  control_address : sockaddr_un
deriving DecidableEq, Repr

/-- The function `setup_control_address`. -/
def setup_control_address (T : Target) (peer_host : String) (peer_port port : Nat) :
    sockaddr_un :=
  { sun_family := AF_UNIX,
    sun_path := control_path_format peer_host (Int.ofNat (ntohs T peer_port))
                  (Int.ofNat (ntohs T port)) }

/-- The function `open_state`: open, size-fix and map the backing file, and
close the descriptor. The result is the address of the record, or `NULL`. -/
def open_state (T : Target) (w : World) (peer_host : String) (peer_port port : Nat)
    (flags : Nat) : Int × World :=
  let path := state_path T peer_host peer_port port
  let o := sys_open w path (decide (flags &&& T.TCPR_CONNECTION_CREATE ≠ 0))
  if o.1 < 0 then (NULL, o.2)
  else
    let f := sys_ftruncate o.2 o.1 T.sizeof_tcpr
    if f.1 < 0 then (NULL, (sys_close f.2 o.1).2)
    else
      let t := sys_mmap f.2 o.1 T.sizeof_tcpr
      let w4 := (sys_close t.2 o.1).2
      (if t.1 = MAP_FAILED then NULL else t.1, w4)

/-- The function `tcpr_setup_connection`: the result, the handle and the world
after the call. -/
def tcpr_setup_connection (T : Target) (w : World) (c : tcpr_connection)
    (peer_address peer_port port : Nat) (flags : Nat) : Int × tcpr_connection × World :=
  let host := inet_ntop T peer_address
  let s := sys_socket w
  let c1 := { c with control_socket := s.1 }
  if c1.control_socket < 0 then (-1, { c1 with state := NULL }, s.2)
  else
    let c2 := { c1 with control_address := setup_control_address T host peer_port port }
    if flags &&& T.TCPR_CONNECTION_FILTER ≠ 0 then
      let w2 := sys_unlink s.2 c2.control_address.sun_path
      let b := sys_bind w2 c2.control_socket c2.control_address.sun_path
      if b.1 < 0 then
        let w4 := (sys_close b.2 c2.control_socket).2
        (-1, { c2 with control_socket := -1, state := NULL }, w4)
      else
        let st := open_state T b.2 host peer_port port flags
        let c3 := { c2 with state := st.1 }
        if c3.state = NULL then
          let w5 := sys_unlink st.2 c3.control_address.sun_path
          let w6 := (sys_close w5 c3.control_socket).2
          (-1, { c3 with control_socket := -1 }, w6)
        else (0, c3, st.2)
    else
      let st := open_state T s.2 host peer_port port flags
      let c3 := { c2 with state := st.1 }
      if c3.state = NULL then
        let w6 := (sys_close st.2 c3.control_socket).2
        (-1, { c3 with control_socket := -1 }, w6)
      else (0, c3, st.2)

/-- The function `tcpr_destroy_connection`. -/
def tcpr_destroy_connection (T : Target) (w : World) (peer_address peer_port port : Nat) :
    World :=
  let host := inet_ntop T peer_address
  let state := state_path_format host (Int.ofNat (ntohs T peer_port)) (Int.ofNat (ntohs T port))
  let control :=
    control_path_format host (Int.ofNat (ntohs T peer_port)) (Int.ofNat (ntohs T port))
  sys_unlink (sys_unlink w state) control

/-- The function `tcpr_teardown_connection`. -/
def tcpr_teardown_connection (T : Target) (w : World) (c : tcpr_connection) :
    tcpr_connection × World :=
  let r1 : tcpr_connection × World :=
    if c.state ≠ NULL then ({ c with state := NULL }, sys_munmap w c.state T.sizeof_tcpr)
    else (c, w)
  if r1.1.control_socket ≥ 0 then
    ({ r1.1 with control_socket := -1 }, (sys_close r1.2 r1.1.control_socket).2)
  else r1

/-! ## Checkpoint engine (`lib/application.c`)

An operation that follows `c->state` has no result when no record is mapped at
that address. -/

/-- The function `update`: one `sendto` of the three bytes of `message`. -/
def update (w : World) (c : tcpr_connection) : Int × World :=
  sys_sendto w c.control_socket c.control_address.sun_path 3

/-- The function `tcpr_output_bytes`: a difference of two `uint32_t`. -/
def tcpr_output_bytes (T : Target) (w : World) (c : tcpr_connection) : Option Nat :=
  match w.mem c.state with
  | none => none
  | some m =>
    some ((ntohl T (load32 T m T.peer_ack) + UINT32_MOD - ntohl T (load32 T m T.saved_safe))
      % UINT32_MOD)

/-- The function `tcpr_input_bytes`: a difference of two `uint32_t`. -/
def tcpr_input_bytes (T : Target) (w : World) (c : tcpr_connection) : Option Nat :=
  match w.mem c.state with
  | none => none
  | some m =>
    some ((ntohl T (load32 T m T.ack) + UINT32_MOD - ntohl T (load32 T m T.saved_ack))
      % UINT32_MOD)

/-- The function `tcpr_checkpoint_output`: the sum is cut to 32 bits when it is
passed to `htonl`. -/
def tcpr_checkpoint_output (T : Target) (w : World) (c : tcpr_connection) (bytes : Nat) :
    Option World :=
  match w.mem c.state with
  | none => none
  | some m =>
    let v := htonl T ((ntohl T (load32 T m T.saved_safe) + bytes) % UINT32_MOD)
    some { w with mem := Function.update w.mem c.state (some (store32 T m T.saved_safe v)) }

/-- The function `tcpr_checkpoint_input`. -/
def tcpr_checkpoint_input (T : Target) (w : World) (c : tcpr_connection) (bytes : Nat) :
    Option (Int × World) :=
  match w.mem c.state with
  | none => none
  | some m =>
    let v := htonl T ((ntohl T (load32 T m T.saved_ack) + bytes) % UINT32_MOD)
    some (update
      { w with mem := Function.update w.mem c.state (some (store32 T m T.saved_ack v)) } c)

/-- The function `tcpr_shutdown_output`. -/
def tcpr_shutdown_output (T : Target) (w : World) (c : tcpr_connection) : Option World :=
  match w.mem c.state with
  | none => none
  | some m =>
    some { w with mem := Function.update w.mem c.state (some (store8 m T.saved_done_writing 1)) }

/-- The function `tcpr_shutdown_input`. -/
def tcpr_shutdown_input (T : Target) (w : World) (c : tcpr_connection) :
    Option (Int × World) :=
  match w.mem c.state with
  | none => none
  | some m =>
    some (update
      { w with mem := Function.update w.mem c.state (some (store8 m T.saved_done_reading 1)) } c)

/-- The function `tcpr_close`. -/
def tcpr_close (T : Target) (w : World) (c : tcpr_connection) : Option (Int × World) :=
  match tcpr_shutdown_output T w c with
  | none => none
  | some w1 => tcpr_shutdown_input T w1 c

/-! ## The administrative tool (`src/control.c`) -/

/-- The socket address `struct sockaddr_in`, both members in network byte order. -/
structure sockaddr_in where
  sin_addr : Nat
  sin_port : Nat
deriving DecidableEq, Repr

/-- The tool's `struct state`. -/
structure state where
  peer_host : String
  peer_port : String
  port : String
  save_file : Option String
  recovery_file : Option String
  input_bytes : Int
  output_bytes : Int
  wait : Int
  destroy : Int
  peer_address : sockaddr_in
  address : sockaddr_in
  tcpr : tcpr_connection
deriving DecidableEq, Repr

/-- How a run of the tool ends early: `exit(EXIT_FAILURE)`, or an access
through a pointer at which no record is mapped. -/
inductive Fault where
  | exit_failure : Fault
  | undefined : Fault
deriving DecidableEq, Repr

/-- An operation of the library, as a step of the tool. -/
def lift {α : Type} (x : Option α) : Except Fault α :=
  match x with
  | some a => Except.ok a
  | none => Except.error Fault.undefined

/-- One round of the `switch` in `handle_options`, for the option character
`o` and its argument as `getopt` returns them; `atoi` is the library function.
No result stands for `print_help_and_exit`. -/
def handle_option (atoi : String → Int) (s : state) (o : Char) (optarg : String) :
    Option state :=
  if o = 'a' then some { s with port := optarg }
  else if o = 'h' then some { s with peer_host := optarg }
  else if o = 'p' then some { s with peer_port := optarg }
  else if o = 'S' then some { s with save_file := some optarg }
  else if o = 'R' then some { s with recovery_file := some optarg }
  else if o = 'I' then
    if optarg = "done" then some { s with input_bytes := -1 }
    else if optarg = "all" then some { s with input_bytes := INT_MAX }
    else some { s with input_bytes := atoi optarg }
  else if o = 'O' then
    if optarg = "done" then some { s with output_bytes := -1 }
    else if optarg = "all" then some { s with output_bytes := INT_MAX }
    else some { s with output_bytes := atoi optarg }
  else if o = 'W' then some { s with wait := 1 }
  else if o = 'D' then some { s with destroy := 1 }
  else none

/-- The function `handle_options`: the defaults, then one round per option
that `getopt` finds on the command line. -/
def handle_options (atoi : String → Int) (s : state) (opts : List (Char × String)) :
    Option state :=
  opts.foldl
    (fun acc o => match acc with
      | none => none
      | some s1 => handle_option atoi s1 o.1 o.2)
    (some { s with peer_host := "127.0.0.1", peer_port := "9999", port := "8888",
                   save_file := none, recovery_file := none,
                   input_bytes := 0, output_bytes := 0, wait := 0, destroy := 0 })

/-- First part of `update_state`: read the checkpoint block from the recovery
file into `saved`. A `read` into memory that is not mapped fails. -/
def update_state_recover (T : Target) (w : World) (s : state) : Except Fault World :=
  match s.recovery_file with
  | none => Except.ok w
  | some file =>
    let o := sys_open w file false
    if o.1 < 0 then Except.error Fault.exit_failure
    else
      let r := sys_read o.2 o.1 T.sizeof_saved
      match r.1, r.2.mem s.tcpr.state with
      | some bs, some m =>
        let w2 := { r.2 with mem := Function.update r.2.mem s.tcpr.state
                                      (some (blit m T.saved bs)) }
        if bs.length ≠ T.sizeof_saved then Except.error Fault.exit_failure
        else
          let cl := sys_close w2 o.1
          if cl.1 < 0 then Except.error Fault.exit_failure else Except.ok cl.2
      | _, _ => Except.error Fault.exit_failure

/-- Second part of `update_state`: the output option. -/
def update_state_output (T : Target) (w : World) (s : state) : Except Fault World :=
  if s.output_bytes < 0 then lift (tcpr_shutdown_output T w s.tcpr)
  else if s.output_bytes > 0 then
    match tcpr_output_bytes T w s.tcpr with
    | none => Except.error Fault.undefined
    | some bytes =>
      let bytes1 := if s.output_bytes.toNat < bytes then s.output_bytes.toNat else bytes
      lift (tcpr_checkpoint_output T w s.tcpr bytes1)
  else Except.ok w

/-- Third part of `update_state`: the input option; the result of the
notification is dropped. -/
def update_state_input (T : Target) (w : World) (s : state) : Except Fault World :=
  if s.input_bytes < 0 then (lift (tcpr_shutdown_input T w s.tcpr)).map Prod.snd
  else if s.input_bytes > 0 then
    match tcpr_input_bytes T w s.tcpr with
    | none => Except.error Fault.undefined
    | some bytes =>
      let bytes1 := if s.input_bytes.toNat < bytes then s.input_bytes.toNat else bytes
      (lift (tcpr_checkpoint_input T w s.tcpr bytes1)).map Prod.snd
  else Except.ok w

/-- The function `update_state`. -/
def update_state (T : Target) (w : World) (s : state) : Except Fault World :=
  match update_state_recover T w s with
  | Except.error e => Except.error e
  | Except.ok w1 =>
    match update_state_output T w1 s with
    | Except.error e => Except.error e
    | Except.ok w2 => update_state_input T w2 s

/-- First part of `teardown_state`: write the block `saved` to the save file.
A `write` from memory that is not mapped fails. -/
def teardown_state_save (T : Target) (w : World) (s : state) : Except Fault World :=
  match s.save_file with
  | none => Except.ok w
  | some file =>
    let cr := sys_creat w file
    if cr.1 < 0 then Except.error Fault.exit_failure
    else
      match cr.2.mem s.tcpr.state with
      | none => Except.error Fault.exit_failure
      | some m =>
        let wr := sys_write cr.2 cr.1 (block m T.saved T.sizeof_saved)
        if wr.1 ≠ Int.ofNat T.sizeof_saved then Except.error Fault.exit_failure
        else
          let cl := sys_close wr.2 cr.1
          if cl.1 < 0 then Except.error Fault.exit_failure else Except.ok cl.2

/-- The function `teardown_state`. The key handed to
`tcpr_destroy_connection` is the peer's address and port and the local port
held in the two socket addresses. -/
def teardown_state (T : Target) (w : World) (s : state) : Except Fault (state × World) :=
  match teardown_state_save T w s with
  | Except.error e => Except.error e
  | Except.ok w1 =>
    let t := tcpr_teardown_connection T w1 s.tcpr
    let s1 := { s with tcpr := t.1 }
    if s.destroy ≠ 0 then
      Except.ok (s1, tcpr_destroy_connection T t.2 s.peer_address.sin_addr
        s.peer_address.sin_port s.address.sin_port)
    else Except.ok (s1, t.2)

/-! ## Layout conditions and views used in the proofs -/

/-- The members of the `saved` group, each with its offset and its width. -/
def Target.saved_members (T : Target) : List (Nat × Nat) :=
  [(T.saved_ack, 4), (T.saved_safe, 4), (T.saved_peer_mss, 2), (T.saved_peer_ws, 1),
   (T.saved_peer_sack_permitted, 1), (T.saved_done_reading, 1), (T.saved_done_writing, 1)]

/-- The filter-owned members, each with its offset and its width. -/
def Target.filter_members (T : Target) : List (Nat × Nat) :=
  [(T.delta, 4), (T.ack, 4), (T.fin, 4), (T.have_fin, 1), (T.seq, 4), (T.win, 2),
   (T.peer_ack, 4), (T.peer_have_ack, 1), (T.peer_fin, 4), (T.peer_have_fin, 1),
   (T.peer_win, 2), (T.done, 1)]

/-- What every C compiler guarantees of the layout of `struct tcpr`: the group
`saved` lies inside the record, its members lie inside the group, the other
members lie inside the record and outside the group, and no two members of
the group overlap. -/
def Target.WF (T : Target) : Prop :=
  T.saved + T.sizeof_saved ≤ T.sizeof_tcpr ∧
  (∀ f ∈ T.saved_members, T.saved ≤ f.1 ∧ f.1 + f.2 ≤ T.saved + T.sizeof_saved) ∧
  (∀ f ∈ T.filter_members,
    (f.1 + f.2 ≤ T.saved ∨ T.saved + T.sizeof_saved ≤ f.1) ∧ f.1 + f.2 ≤ T.sizeof_tcpr) ∧
  T.saved_members.Pairwise (fun a b => a.1 + a.2 ≤ b.1 ∨ b.1 + b.2 ≤ a.1)

instance (T : Target) : Decidable T.WF := by
  unfold Target.WF
  infer_instance

/-- Value of a 32-bit member read as four bytes, most significant first. -/
def be32 (m : Region) (o : Nat) : Nat :=
  16777216 * (m o).val + 65536 * (m (o + 1)).val + 256 * (m (o + 2)).val + (m (o + 3)).val

/-- Write of a 32-bit value as four bytes, most significant first. -/
def put_be32 (m : Region) (o : Nat) (v : Nat) : Region :=
  store8 (store8 (store8 (store8 m o (v / 16777216)) (o + 1) (v / 65536)) (o + 2) (v / 256))
    (o + 3) v

/-- The checkpoint invariants of a record: `saved.ack ≤ ack` and
`saved.safe ≤ peer.ack`, on the host-order values. -/
def checkpoint_invariant (T : Target) (m : Region) : Prop :=
  ntohl T (load32 T m T.saved_ack) ≤ ntohl T (load32 T m T.ack) ∧
  ntohl T (load32 T m T.saved_safe) ≤ ntohl T (load32 T m T.peer_ack)

instance (T : Target) (m : Region) : Decidable (checkpoint_invariant T m) := by
  unfold checkpoint_invariant
  infer_instance

/-- The separations between members that the operations rely on. -/
structure Separated (T : Target) : Prop where
  ack_safe : T.saved_ack + 4 ≤ T.saved_safe ∨ T.saved_safe + 4 ≤ T.saved_ack
  sack_ack : T.saved_ack + 4 ≤ T.ack ∨ T.ack + 4 ≤ T.saved_ack
  sack_pack : T.saved_ack + 4 ≤ T.peer_ack ∨ T.peer_ack + 4 ≤ T.saved_ack
  safe_ack : T.saved_safe + 4 ≤ T.ack ∨ T.ack + 4 ≤ T.saved_safe
  safe_pack : T.saved_safe + 4 ≤ T.peer_ack ∨ T.peer_ack + 4 ≤ T.saved_safe
  dr_sack : T.saved_ack + 4 ≤ T.saved_done_reading ∨ T.saved_done_reading + 1 ≤ T.saved_ack
  dr_safe : T.saved_safe + 4 ≤ T.saved_done_reading ∨ T.saved_done_reading + 1 ≤ T.saved_safe
  dr_ack : T.saved_done_reading + 1 ≤ T.ack ∨ T.ack + 4 ≤ T.saved_done_reading
  dr_pack : T.saved_done_reading + 1 ≤ T.peer_ack ∨ T.peer_ack + 4 ≤ T.saved_done_reading
  dw_sack : T.saved_ack + 4 ≤ T.saved_done_writing ∨ T.saved_done_writing + 1 ≤ T.saved_ack
  dw_safe : T.saved_safe + 4 ≤ T.saved_done_writing ∨ T.saved_done_writing + 1 ≤ T.saved_safe
  dw_ack : T.saved_done_writing + 1 ≤ T.ack ∨ T.ack + 4 ≤ T.saved_done_writing
  dw_pack : T.saved_done_writing + 1 ≤ T.peer_ack ∨ T.peer_ack + 4 ≤ T.saved_done_writing

/-- Relation between a record and its successor under an operation: the
checkpoint invariants hold after it, and neither `saved.ack` nor `saved.safe`
has become smaller. -/
def checkpoint_step (T : Target) (m m' : Region) : Prop :=
  checkpoint_invariant T m' ∧
  ntohl T (load32 T m T.saved_ack) ≤ ntohl T (load32 T m' T.saved_ack) ∧
  ntohl T (load32 T m T.saved_safe) ≤ ntohl T (load32 T m' T.saved_safe)

/-- Value of a decimal digit character. -/
def digit_value (c : Char) : Nat := c.toNat - 48

/-- Value of a list of decimal digits, most significant first. -/
def decimal_value (l : List Char) : Nat := l.foldl (fun a c => 10 * a + digit_value c) 0

/-- Every filter-owned member of a record reads as zero. -/
def filter_state_zero (T : Target) (m : Region) : Prop :=
  load32 T m T.delta = 0 ∧ load32 T m T.ack = 0 ∧ load32 T m T.fin = 0 ∧
  load8 m T.have_fin = 0 ∧ load32 T m T.seq = 0 ∧ load16 T m T.win = 0 ∧
  load32 T m T.peer_ack = 0 ∧ load8 m T.peer_have_ack = 0 ∧ load32 T m T.peer_fin = 0 ∧
  load8 m T.peer_have_fin = 0 ∧ load16 T m T.peer_win = 0 ∧ load8 m T.done = 0

instance (T : Target) (m : Region) : Decidable (filter_state_zero T m) := by
  unfold filter_state_zero
  infer_instance

/-! ## A concrete target, for evaluation -/

/-- Modelled from the spec: a little-endian host on which the members of
`struct tcpr` follow each other in the order the spec lists them, the `saved`
group first, each at its natural alignment. -/
def linux_le : Target :=
  { little_endian := true,
    TCPR_CONNECTION_CREATE := 1,
    TCPR_CONNECTION_FILTER := 2,
    sizeof_tcpr := 48,
    saved := 0,
    sizeof_saved := 16,
    saved_ack := 0,
    saved_safe := 4,
    saved_peer_mss := 8,
    saved_peer_ws := 10,
    saved_peer_sack_permitted := 11,
    saved_done_reading := 12,
    saved_done_writing := 13,
    delta := 16,
    ack := 20,
    fin := 24,
    seq := 28,
    win := 32,
    have_fin := 34,
    done := 35,
    peer_ack := 36,
    peer_fin := 40,
    peer_win := 44,
    peer_have_fin := 46,
    peer_have_ack := 47 }

/-- The same layout on a big-endian host. -/
def linux_be : Target := { linux_le with little_endian := false }

/-! ## Concrete worlds, for evaluation -/

/-- An environment in which every system call succeeds and is handed a number
not handed out before. -/
def env_fresh : Nat → Int := fun k => Int.ofNat k + 64

/-- An environment in which every system call fails. -/
def env_fail : Nat → Int := fun _ => -1

/-- A world with no descriptor, no file and no mapping. -/
def world_empty (env : Nat → Int) : World :=
  { fdtab := fun _ => none, files := fun _ => none, mem := fun _ => none, env := env, log := [] }

/-- A record on the host `linux_le` with the given host-order values of
`saved.ack`, `saved.safe`, `ack` and `peer.ack`; every other byte is zero. -/
def demo_record (saved_ack saved_safe ack peer_ack : Nat) : Region :=
  store32 linux_le
    (store32 linux_le
      (store32 linux_le
        (store32 linux_le zero_region linux_le.saved_ack (htonl linux_le saved_ack))
        linux_le.saved_safe (htonl linux_le saved_safe))
      linux_le.ack (htonl linux_le ack))
    linux_le.peer_ack (htonl linux_le peer_ack)

/-- A record on the host `linux_le` whose `saved` group holds `saved.ack` =
0x01020304, `saved.safe` = 0x05060708 and `saved.done_reading` = 1. -/
def demo_checkpointed : Region :=
  store8 (demo_record 16909060 84281096 350 1000) linux_le.saved_done_reading 1

/-- A world in which the record `m` is mapped at address 4096, descriptor 3 is
a socket, and the given files exist. -/
def demo_world (m : Region) (files : String → Option (List Byte)) : World :=
  { fdtab := fun fd => if fd = 3 then some FdObj.sock else none,
    files := files,
    mem := fun a => if a = 4096 then some m else none,
    env := env_fresh,
    log := [] }

/-- No file at all. -/
def no_files : String → Option (List Byte) := fun _ => none

/-- The handle of an application attached to the record of `demo_world`, for
the key (127.0.0.1, 9999, 8888). -/
def demo_handle : tcpr_connection :=
  { state := 4096,
    control_socket := 3,
    control_address :=
      setup_control_address linux_le (inet_ntop linux_le 16777343) (htons linux_le 9999)
        (htons linux_le 8888) }

/-- The tool's state for the key (127.0.0.1, 9999, 8888) once `setup_state` has
attached `demo_handle`, with no option given. -/
def demo_state : state :=
  { peer_host := "127.0.0.1", peer_port := "9999", port := "8888",
    save_file := none, recovery_file := none,
    input_bytes := 0, output_bytes := 0, wait := 0, destroy := 0,
    peer_address := { sin_addr := 16777343, sin_port := htons linux_le 9999 },
    address := { sin_addr := 0, sin_port := htons linux_le 8888 },
    tcpr := demo_handle }

/-- A handle as a caller declares it before setup, with nothing attached. -/
def blank_handle : tcpr_connection :=
  { state := NULL, control_socket := -1, control_address := { sun_family := 0, sun_path := "" } }

/-! # Theorems -/

/-! ## Byte order and memory -/

theorem bswap32_bytes (a b c d : Nat) (ha : a < 256) (hb : b < 256) (hc : c < 256)
    (hd : d < 256) :
    bswap32 (a + 256 * b + 65536 * c + 16777216 * d) = d + 256 * c + 65536 * b + 16777216 * a := by
  unfold bswap32; omega

theorem bswap16_bytes (a b : Nat) (ha : a < 256) (hb : b < 256) :
    bswap16 (a + 256 * b) = b + 256 * a := by
  unfold bswap16; omega

theorem bswap16_bswap16 (x : Nat) (h : x < 65536) : bswap16 (bswap16 x) = x := by
  have e : x = x % 256 + 256 * (x / 256) := by omega
  have h1 : x / 256 < 256 := by omega
  have h0 : x % 256 < 256 := Nat.mod_lt _ (by decide)
  generalize x % 256 = a at *
  generalize x / 256 = b at *
  subst e
  rw [bswap16_bytes a b h0 h1, bswap16_bytes b a h1 h0]

theorem bswap32_lt (x : Nat) : bswap32 x < 4294967296 := by
  unfold bswap32; omega

theorem bswap32_digits (v : Nat) :
    bswap32 v % 256 = v / 16777216 % 256 ∧ bswap32 v / 256 % 256 = v / 65536 % 256 ∧
    bswap32 v / 65536 % 256 = v / 256 % 256 ∧ bswap32 v / 16777216 % 256 = v % 256 := by
  unfold bswap32
  have ha : v % 256 < 256 := Nat.mod_lt _ (by decide)
  have hb : v / 256 % 256 < 256 := Nat.mod_lt _ (by decide)
  have hc : v / 65536 % 256 < 256 := Nat.mod_lt _ (by decide)
  have hd : v / 16777216 % 256 < 256 := Nat.mod_lt _ (by decide)
  generalize v % 256 = a at *
  generalize v / 256 % 256 = b at *
  generalize v / 65536 % 256 = c at *
  generalize v / 16777216 % 256 = d at *
  refine ⟨?_, ?_, ?_, ?_⟩ <;> omega

theorem bswap32_bswap32 (x : Nat) (h : x < 4294967296) : bswap32 (bswap32 x) = x := by
  obtain ⟨h0, h1, h2, h3⟩ := bswap32_digits x
  have e : bswap32 (bswap32 x) = bswap32 x % 256 * 16777216 + bswap32 x / 256 % 256 * 65536
      + bswap32 x / 65536 % 256 * 256 + bswap32 x / 16777216 % 256 := rfl
  rw [e, h0, h1, h2, h3]
  omega

theorem byte_bswap32 (v : Nat) :
    byte (bswap32 v) = byte (v / 16777216) ∧ byte (bswap32 v / 256) = byte (v / 65536) ∧
    byte (bswap32 v / 65536) = byte (v / 256) ∧ byte (bswap32 v / 16777216) = byte v := by
  obtain ⟨h0, h1, h2, h3⟩ := bswap32_digits v
  unfold byte
  exact ⟨Fin.ext h0, Fin.ext h1, Fin.ext h2, Fin.ext h3⟩

theorem ntohl_load32 (T : Target) (m : Region) (o : Nat) :
    ntohl T (load32 T m o) = be32 m o := by
  unfold ntohl load32 be32
  cases T.little_endian
  · simp
  · simp only [if_true]
    rw [bswap32_bytes _ _ _ _ (m o).isLt (m (o + 1)).isLt (m (o + 2)).isLt (m (o + 3)).isLt]
    omega

theorem be32_lt (m : Region) (o : Nat) : be32 m o < 4294967296 := by
  unfold be32
  have h0 := (m o).isLt
  have h1 := (m (o + 1)).isLt
  have h2 := (m (o + 2)).isLt
  have h3 := (m (o + 3)).isLt
  omega

theorem store32_htonl (T : Target) (m : Region) (o v : Nat) :
    store32 T m o (htonl T v) = put_be32 m o v := by
  unfold store32 htonl put_be32
  cases T.little_endian
  · simp
  · simp only [if_true]
    obtain ⟨h0, h1, h2, h3⟩ := byte_bswap32 v
    simp only [store8, h0, h1, h2, h3]

theorem be32_put_be32 (m : Region) (o v : Nat) :
    be32 (put_be32 m o v) o = v % 4294967296 := by
  simp [be32, put_be32, store8, Function.update, byte]
  omega

theorem put_be32_other (m : Region) (o v i : Nat) (h : i < o ∨ o + 4 ≤ i) :
    put_be32 m o v i = m i := by
  simp only [put_be32, store8]
  rw [Function.update_noteq (by omega), Function.update_noteq (by omega),
    Function.update_noteq (by omega), Function.update_noteq (by omega)]

theorem be32_congr (m m' : Region) (o : Nat) (h : ∀ k, k < 4 → m' (o + k) = m (o + k)) :
    be32 m' o = be32 m o := by
  have e0 := h 0 (by omega)
  simp only [Nat.add_zero] at e0
  simp only [be32, e0, h 1 (by omega), h 2 (by omega), h 3 (by omega)]

theorem be32_put_be32_other (m : Region) (o o' v : Nat) (h : o + 4 ≤ o' ∨ o' + 4 ≤ o) :
    be32 (put_be32 m o v) o' = be32 m o' :=
  be32_congr m _ o' (fun k hk => put_be32_other m o v (o' + k) (by omega))

theorem be32_store8_other (m : Region) (o o' v : Nat) (h : o < o' ∨ o' + 4 ≤ o) :
    be32 (store8 m o v) o' = be32 m o' :=
  be32_congr m _ o' (fun k hk => by
    simp only [store8]
    rw [Function.update_noteq (by omega)])

theorem load8_store8 (m : Region) (o v : Nat) : load8 (store8 m o v) o = v % 256 := by
  simp [load8, store8, byte]

theorem load8_store8_other (m : Region) (o o' v : Nat) (h : o' ≠ o) :
    load8 (store8 m o v) o' = load8 m o' := by
  simp only [load8, store8]
  rw [Function.update_noteq h]

theorem inside_outside (s n a wa b wb : Nat) (hi : s ≤ a ∧ a + wa ≤ s + n)
    (ho : b + wb ≤ s ∨ s + n ≤ b) : a + wa ≤ b ∨ b + wb ≤ a := by
  omega

/-! ## Checkpoint engine -/

theorem Target.WF.separated {T : Target} (h : T.WF) : Separated T := by
  simp only [Target.WF, Target.saved_members, Target.filter_members, List.pairwise_cons,
    List.mem_cons, List.mem_singleton, forall_eq_or_imp, forall_eq, List.not_mem_nil,
    IsEmpty.forall_iff, List.Pairwise.nil, and_true, implies_true, List.mem_nil_iff] at h
  obtain ⟨-, ⟨i1, i2, -, -, -, i6, i7⟩, ⟨-, ⟨o2, -⟩, -, -, -, -, ⟨o7, -⟩, -⟩,
    ⟨p12, -, -, -, p16, p17⟩, ⟨-, -, -, p26, p27⟩, -⟩ := h
  exact
    { ack_safe := p12
      sack_ack := inside_outside _ _ _ _ _ _ i1 o2
      sack_pack := inside_outside _ _ _ _ _ _ i1 o7
      safe_ack := inside_outside _ _ _ _ _ _ i2 o2
      safe_pack := inside_outside _ _ _ _ _ _ i2 o7
      dr_sack := p16
      dr_safe := p26
      dr_ack := inside_outside _ _ _ _ _ _ i6 o2
      dr_pack := inside_outside _ _ _ _ _ _ i6 o7
      dw_sack := p17
      dw_safe := p27
      dw_ack := inside_outside _ _ _ _ _ _ i7 o2
      dw_pack := inside_outside _ _ _ _ _ _ i7 o7 }

theorem tcpr_output_bytes_eq (T : Target) (w : World) (c : tcpr_connection) (m : Region)
    (hm : w.mem c.state = some m) :
    tcpr_output_bytes T w c
      = some ((be32 m T.peer_ack + 4294967296 - be32 m T.saved_safe) % 4294967296) := by
  simp only [tcpr_output_bytes, hm, ntohl_load32, UINT32_MOD]

theorem tcpr_input_bytes_eq (T : Target) (w : World) (c : tcpr_connection) (m : Region)
    (hm : w.mem c.state = some m) :
    tcpr_input_bytes T w c
      = some ((be32 m T.ack + 4294967296 - be32 m T.saved_ack) % 4294967296) := by
  simp only [tcpr_input_bytes, hm, ntohl_load32, UINT32_MOD]

theorem tcpr_checkpoint_output_eq (T : Target) (w : World) (c : tcpr_connection) (m : Region)
    (n : Nat) (hm : w.mem c.state = some m) :
    tcpr_checkpoint_output T w c n
      = some { w with
          mem := Function.update w.mem c.state
                   (some (put_be32 m T.saved_safe ((be32 m T.saved_safe + n) % 4294967296))) } := by
  simp only [tcpr_checkpoint_output, hm, ntohl_load32, store32_htonl, UINT32_MOD]

theorem tcpr_checkpoint_input_eq (T : Target) (w : World) (c : tcpr_connection) (m : Region)
    (n : Nat) (hm : w.mem c.state = some m) :
    tcpr_checkpoint_input T w c n
      = some (w.env w.log.length,
          { w with
            mem := Function.update w.mem c.state
                     (some (put_be32 m T.saved_ack ((be32 m T.saved_ack + n) % 4294967296))),
            log := w.log ++ [Event.sendto c.control_socket c.control_address.sun_path 3
                               (w.env w.log.length)] }) := by
  simp only [tcpr_checkpoint_input, hm, ntohl_load32, store32_htonl, UINT32_MOD, update,
    sys_sendto, World.answer]

/-- C1: on a record whose `peer.ack` holds `A` and whose `saved.safe` holds `S`,
with `S ≤ A`, `tcpr_output_bytes` returns `A - S`; for `n ≤ A - S`,
`tcpr_checkpoint_output` with `n` leaves `S + n` in `saved.safe`, after which
`tcpr_output_bytes` returns `A - S - n`; no system call is made, so no
notification is sent. -/
theorem checkpoint_output_spec (T : Target) (hT : T.WF) (w : World) (c : tcpr_connection)
    (m : Region) (A S n : Nat)
    (hm : w.mem c.state = some m)
    (hA : ntohl T (load32 T m T.peer_ack) = A)
    (hS : ntohl T (load32 T m T.saved_safe) = S)
    (hSA : S ≤ A) (hn : n ≤ A - S) :
    tcpr_output_bytes T w c = some (A - S) ∧
    ∃ w' m', tcpr_checkpoint_output T w c n = some w' ∧
      w'.mem c.state = some m' ∧
      ntohl T (load32 T m' T.saved_safe) = S + n ∧
      tcpr_output_bytes T w' c = some (A - S - n) ∧
      w'.log = w.log ∧ notifications w'.log = notifications w.log := by
  have sep := hT.separated
  rw [ntohl_load32] at hA hS
  have hlt := be32_lt m T.peer_ack
  refine ⟨?_, _, _, tcpr_checkpoint_output_eq T w c m n hm,
    Function.update_same c.state _ w.mem, ?_, ?_, rfl, rfl⟩
  · rw [tcpr_output_bytes_eq T w c m hm, hA, hS]
    congr 1; omega
  · rw [ntohl_load32, be32_put_be32, hS]
    omega
  · rw [tcpr_output_bytes_eq T _ c _ (Function.update_same c.state _ w.mem), be32_put_be32,
      be32_put_be32_other _ _ _ _ sep.safe_pack, hA, hS]
    congr 1; omega

theorem checkpoint_output_spec_witness :
    linux_le.WF ∧
    (demo_world (demo_record 0 0 0 1000) no_files).mem demo_handle.state
      = some (demo_record 0 0 0 1000) ∧
    ntohl linux_le (load32 linux_le (demo_record 0 0 0 1000) linux_le.peer_ack) = 1000 ∧
    ntohl linux_le (load32 linux_le (demo_record 0 0 0 1000) linux_le.saved_safe) = 0 ∧
    (tcpr_output_bytes linux_le (demo_world (demo_record 0 0 0 1000) no_files) demo_handle
        = some (1000 - 0) ∧
      ∃ w' m', tcpr_checkpoint_output linux_le (demo_world (demo_record 0 0 0 1000) no_files)
          demo_handle 400 = some w' ∧
        w'.mem demo_handle.state = some m' ∧
        ntohl linux_le (load32 linux_le m' linux_le.saved_safe) = 0 + 400 ∧
        tcpr_output_bytes linux_le w' demo_handle = some (1000 - 0 - 400) ∧
        w'.log = (demo_world (demo_record 0 0 0 1000) no_files).log ∧
        notifications w'.log
          = notifications (demo_world (demo_record 0 0 0 1000) no_files).log) :=
  ⟨by decide, rfl, by decide, by decide,
    checkpoint_output_spec linux_le (by decide) _ demo_handle _ 1000 0 400 rfl (by decide)
      (by decide) (by decide) (by decide)⟩

theorem notifications_append_sendto (l : List Event) (fd : Int) (path : String) (k : Nat)
    (r : Int) : notifications (l ++ [Event.sendto fd path k r]) = notifications l + 1 := by
  simp [notifications, List.filter_append]

theorem tcpr_shutdown_output_eq (T : Target) (w : World) (c : tcpr_connection) (m : Region)
    (hm : w.mem c.state = some m) :
    tcpr_shutdown_output T w c
      = some { w with
          mem := Function.update w.mem c.state (some (store8 m T.saved_done_writing 1)) } := by
  simp only [tcpr_shutdown_output, hm]

theorem tcpr_shutdown_input_eq (T : Target) (w : World) (c : tcpr_connection) (m : Region)
    (hm : w.mem c.state = some m) :
    tcpr_shutdown_input T w c
      = some (w.env w.log.length,
          { w with
            mem := Function.update w.mem c.state (some (store8 m T.saved_done_reading 1)),
            log := w.log ++ [Event.sendto c.control_socket c.control_address.sun_path 3
                               (w.env w.log.length)] }) := by
  simp only [tcpr_shutdown_input, hm, update, sys_sendto, World.answer]

theorem tcpr_close_eq (T : Target) (w : World) (c : tcpr_connection) (m : Region)
    (hm : w.mem c.state = some m) :
    tcpr_close T w c
      = some (w.env w.log.length,
          { w with
            mem := Function.update w.mem c.state
                     (some (store8 (store8 m T.saved_done_writing 1) T.saved_done_reading 1)),
            log := w.log ++ [Event.sendto c.control_socket c.control_address.sun_path 3
                               (w.env w.log.length)] }) := by
  rw [tcpr_close, tcpr_shutdown_output_eq T w c m hm]
  simp only
  rw [tcpr_shutdown_input_eq T _ c _ (Function.update_same c.state _ w.mem)]
  simp

/-- C2: on a record whose `ack` holds `B` and whose `saved.ack` holds `S`, with
`S ≤ B`, `tcpr_input_bytes` returns `B - S`; for `n ≤ B - S`,
`tcpr_checkpoint_input` with `n` leaves `S + n` in `saved.ack`, after which
`tcpr_input_bytes` returns `B - S - n`; the trace grows by exactly one `sendto`,
whose result is the value returned. -/
theorem checkpoint_input_spec (T : Target) (hT : T.WF) (w : World) (c : tcpr_connection)
    (m : Region) (B S n : Nat)
    (hm : w.mem c.state = some m)
    (hB : ntohl T (load32 T m T.ack) = B)
    (hS : ntohl T (load32 T m T.saved_ack) = S)
    (hSB : S ≤ B) (hn : n ≤ B - S) :
    tcpr_input_bytes T w c = some (B - S) ∧
    ∃ r w' m', tcpr_checkpoint_input T w c n = some (r, w') ∧
      w'.mem c.state = some m' ∧
      ntohl T (load32 T m' T.saved_ack) = S + n ∧
      tcpr_input_bytes T w' c = some (B - S - n) ∧
      w'.log = w.log ++ [Event.sendto c.control_socket c.control_address.sun_path 3 r] ∧
      notifications w'.log = notifications w.log + 1 := by
  have sep := hT.separated
  rw [ntohl_load32] at hB hS
  have hlt := be32_lt m T.ack
  refine ⟨?_, _, _, _, tcpr_checkpoint_input_eq T w c m n hm,
    Function.update_same c.state _ w.mem, ?_, ?_, rfl, notifications_append_sendto _ _ _ _ _⟩
  · rw [tcpr_input_bytes_eq T w c m hm, hB, hS]
    congr 1; omega
  · rw [ntohl_load32, be32_put_be32, hS]
    omega
  · rw [tcpr_input_bytes_eq T _ c _ (Function.update_same c.state _ w.mem), be32_put_be32,
      be32_put_be32_other _ _ _ _ sep.sack_ack, hB, hS]
    congr 1; omega

theorem checkpoint_input_spec_witness :
    linux_le.WF ∧
    (demo_world (demo_record 100 0 350 0) no_files).mem demo_handle.state
      = some (demo_record 100 0 350 0) ∧
    ntohl linux_le (load32 linux_le (demo_record 100 0 350 0) linux_le.ack) = 350 ∧
    ntohl linux_le (load32 linux_le (demo_record 100 0 350 0) linux_le.saved_ack) = 100 ∧
    (tcpr_input_bytes linux_le (demo_world (demo_record 100 0 350 0) no_files) demo_handle
        = some (350 - 100) ∧
      ∃ r w' m', tcpr_checkpoint_input linux_le (demo_world (demo_record 100 0 350 0) no_files)
          demo_handle 50 = some (r, w') ∧
        w'.mem demo_handle.state = some m' ∧
        ntohl linux_le (load32 linux_le m' linux_le.saved_ack) = 100 + 50 ∧
        tcpr_input_bytes linux_le w' demo_handle = some (350 - 100 - 50) ∧
        w'.log = (demo_world (demo_record 100 0 350 0) no_files).log
          ++ [Event.sendto demo_handle.control_socket demo_handle.control_address.sun_path 3 r] ∧
        notifications w'.log
          = notifications (demo_world (demo_record 100 0 350 0) no_files).log + 1) :=
  ⟨by decide, rfl, by decide, by decide,
    checkpoint_input_spec linux_le (by decide) _ demo_handle _ 350 100 50 rfl (by decide)
      (by decide) (by decide) (by decide)⟩

/-- C3: on every handle with a mapped record, `tcpr_close` leaves
`saved.done_writing` and `saved.done_reading` set, the trace grows by exactly
one `sendto`, whose result is the value returned; `tcpr_shutdown_output` alone
makes no system call and `tcpr_shutdown_input` alone makes exactly one
`sendto`. -/
theorem close_spec (T : Target) (w : World) (c : tcpr_connection) (m : Region)
    (hm : w.mem c.state = some m) :
    (∃ r w' m', tcpr_close T w c = some (r, w') ∧
      w'.mem c.state = some m' ∧
      load8 m' T.saved_done_writing = 1 ∧ load8 m' T.saved_done_reading = 1 ∧
      w'.log = w.log ++ [Event.sendto c.control_socket c.control_address.sun_path 3 r] ∧
      notifications w'.log = notifications w.log + 1) ∧
    (∃ w', tcpr_shutdown_output T w c = some w' ∧ w'.log = w.log ∧
      notifications w'.log = notifications w.log) ∧
    (∃ r w', tcpr_shutdown_input T w c = some (r, w') ∧
      w'.log = w.log ++ [Event.sendto c.control_socket c.control_address.sun_path 3 r] ∧
      notifications w'.log = notifications w.log + 1) := by
  refine ⟨⟨_, _, _, tcpr_close_eq T w c m hm, Function.update_same c.state _ w.mem, ?_, ?_, rfl,
      notifications_append_sendto _ _ _ _ _⟩,
    ⟨_, tcpr_shutdown_output_eq T w c m hm, rfl, rfl⟩,
    ⟨_, _, tcpr_shutdown_input_eq T w c m hm, rfl, notifications_append_sendto _ _ _ _ _⟩⟩
  · by_cases h : T.saved_done_writing = T.saved_done_reading
    · rw [h, load8_store8]
    · rw [load8_store8_other _ _ _ _ h, load8_store8]
  · rw [load8_store8]

theorem close_spec_witness :
    (demo_world (demo_record 0 0 0 0) no_files).mem demo_handle.state
      = some (demo_record 0 0 0 0) ∧
    ((∃ r w' m', tcpr_close linux_le (demo_world (demo_record 0 0 0 0) no_files) demo_handle
          = some (r, w') ∧
      w'.mem demo_handle.state = some m' ∧
      load8 m' linux_le.saved_done_writing = 1 ∧ load8 m' linux_le.saved_done_reading = 1 ∧
      w'.log = (demo_world (demo_record 0 0 0 0) no_files).log
        ++ [Event.sendto demo_handle.control_socket demo_handle.control_address.sun_path 3 r] ∧
      notifications w'.log
        = notifications (demo_world (demo_record 0 0 0 0) no_files).log + 1) ∧
    (∃ w', tcpr_shutdown_output linux_le (demo_world (demo_record 0 0 0 0) no_files) demo_handle
          = some w' ∧
      w'.log = (demo_world (demo_record 0 0 0 0) no_files).log ∧
      notifications w'.log = notifications (demo_world (demo_record 0 0 0 0) no_files).log) ∧
    (∃ r w', tcpr_shutdown_input linux_le (demo_world (demo_record 0 0 0 0) no_files) demo_handle
          = some (r, w') ∧
      w'.log = (demo_world (demo_record 0 0 0 0) no_files).log
        ++ [Event.sendto demo_handle.control_socket demo_handle.control_address.sun_path 3 r] ∧
      notifications w'.log
        = notifications (demo_world (demo_record 0 0 0 0) no_files).log + 1)) :=
  ⟨rfl, close_spec linux_le _ demo_handle _ rfl⟩

theorem checkpoint_step_store8 (T : Target) (m : Region) (o v : Nat)
    (h1 : o < T.saved_ack ∨ T.saved_ack + 4 ≤ o) (h2 : o < T.saved_safe ∨ T.saved_safe + 4 ≤ o)
    (h3 : o < T.ack ∨ T.ack + 4 ≤ o) (h4 : o < T.peer_ack ∨ T.peer_ack + 4 ≤ o)
    (hinv : checkpoint_invariant T m) : checkpoint_step T m (store8 m o v) := by
  unfold checkpoint_step checkpoint_invariant at *
  simp only [ntohl_load32] at *
  rw [be32_store8_other _ _ _ _ h1, be32_store8_other _ _ _ _ h2, be32_store8_other _ _ _ _ h3,
    be32_store8_other _ _ _ _ h4]
  exact ⟨hinv, le_refl _, le_refl _⟩

theorem checkpoint_step_trans (T : Target) (m m' m'' : Region) (h1 : checkpoint_step T m m')
    (h2 : checkpoint_step T m' m'') : checkpoint_step T m m'' :=
  ⟨h2.1, le_trans h1.2.1 h2.2.1, le_trans h1.2.2 h2.2.2⟩

/-- C7, as amended: on a record that satisfies `saved.ack ≤ ack` and
`saved.safe ≤ peer.ack`, `tcpr_checkpoint_output` with a count of at most
`peer.ack - saved.safe`, `tcpr_checkpoint_input` with a count of at most
`ack - saved.ack`, `tcpr_shutdown_output`, `tcpr_shutdown_input` and
`tcpr_close` each yield a record that satisfies both invariants again and in
which neither `saved.ack` nor `saved.safe` is smaller than before. -/
theorem checkpoint_invariant_preserved (T : Target) (hT : T.WF) (w : World)
    (c : tcpr_connection) (m : Region) (n : Nat)
    (hm : w.mem c.state = some m) (hinv : checkpoint_invariant T m) :
    (n ≤ ntohl T (load32 T m T.peer_ack) - ntohl T (load32 T m T.saved_safe) →
      ∃ w' m', tcpr_checkpoint_output T w c n = some w' ∧ w'.mem c.state = some m' ∧
        checkpoint_step T m m') ∧
    (n ≤ ntohl T (load32 T m T.ack) - ntohl T (load32 T m T.saved_ack) →
      ∃ r w' m', tcpr_checkpoint_input T w c n = some (r, w') ∧ w'.mem c.state = some m' ∧
        checkpoint_step T m m') ∧
    (∃ w' m', tcpr_shutdown_output T w c = some w' ∧ w'.mem c.state = some m' ∧
      checkpoint_step T m m') ∧
    (∃ r w' m', tcpr_shutdown_input T w c = some (r, w') ∧ w'.mem c.state = some m' ∧
      checkpoint_step T m m') ∧
    (∃ r w' m', tcpr_close T w c = some (r, w') ∧ w'.mem c.state = some m' ∧
      checkpoint_step T m m') := by
  have sep := hT.separated
  have hdw : checkpoint_step T m (store8 m T.saved_done_writing 1) :=
    checkpoint_step_store8 T m _ 1 (by have := sep.dw_sack; omega) (by have := sep.dw_safe; omega)
      (by have := sep.dw_ack; omega) (by have := sep.dw_pack; omega) hinv
  have hdr : ∀ m0, checkpoint_invariant T m0 →
      checkpoint_step T m0 (store8 m0 T.saved_done_reading 1) := fun m0 h0 =>
    checkpoint_step_store8 T m0 _ 1 (by have := sep.dr_sack; omega)
      (by have := sep.dr_safe; omega) (by have := sep.dr_ack; omega)
      (by have := sep.dr_pack; omega) h0
  refine ⟨?_, ?_, ⟨_, _, tcpr_shutdown_output_eq T w c m hm, Function.update_same c.state _ w.mem,
      hdw⟩,
    ⟨_, _, _, tcpr_shutdown_input_eq T w c m hm, Function.update_same c.state _ w.mem, hdr m hinv⟩,
    ⟨_, _, _, tcpr_close_eq T w c m hm, Function.update_same c.state _ w.mem,
      checkpoint_step_trans T _ _ _ hdw (hdr _ hdw.1)⟩⟩
  · intro hn
    refine ⟨_, _, tcpr_checkpoint_output_eq T w c m n hm, Function.update_same c.state _ w.mem, ?_⟩
    unfold checkpoint_step checkpoint_invariant at *
    simp only [ntohl_load32] at *
    have hlt := be32_lt m T.peer_ack
    rw [be32_put_be32, be32_put_be32_other _ _ _ _ sep.safe_pack,
      be32_put_be32_other _ _ _ _ sep.safe_ack,
      be32_put_be32_other _ _ _ _ (Or.symm sep.ack_safe)]
    omega
  · intro hn
    refine ⟨_, _, _, tcpr_checkpoint_input_eq T w c m n hm, Function.update_same c.state _ w.mem,
      ?_⟩
    unfold checkpoint_step checkpoint_invariant at *
    simp only [ntohl_load32] at *
    have hlt := be32_lt m T.ack
    rw [be32_put_be32, be32_put_be32_other _ _ _ _ sep.sack_ack,
      be32_put_be32_other _ _ _ _ sep.sack_pack,
      be32_put_be32_other _ _ _ _ sep.ack_safe]
    omega

theorem checkpoint_invariant_preserved_witness :
    linux_le.WF ∧
    (demo_world (demo_record 100 200 350 1000) no_files).mem demo_handle.state
      = some (demo_record 100 200 350 1000) ∧
    checkpoint_invariant linux_le (demo_record 100 200 350 1000) ∧
    ∃ w' m', tcpr_checkpoint_output linux_le (demo_world (demo_record 100 200 350 1000) no_files)
        demo_handle 800 = some w' ∧ w'.mem demo_handle.state = some m' ∧
      checkpoint_step linux_le (demo_record 100 200 350 1000) m' :=
  ⟨by decide, rfl, by decide,
    (checkpoint_invariant_preserved linux_le (by decide) _ demo_handle _ 800 rfl
      (by decide)).1 (by decide)⟩

/-- C7, as stated, fails: with `saved.safe = 0` and `peer.ack = 10` the
invariants hold, and `tcpr_checkpoint_output` with 20 bytes leaves
`saved.safe = 20`, above `peer.ack`. -/
theorem checkpoint_output_past_peer_ack :
    checkpoint_invariant linux_le (demo_record 0 0 0 10) ∧
    ∃ w' m', tcpr_checkpoint_output linux_le (demo_world (demo_record 0 0 0 10) no_files)
        demo_handle 20 = some w' ∧ w'.mem demo_handle.state = some m' ∧
      ntohl linux_le (load32 linux_le m' linux_le.saved_safe) = 20 ∧
      ntohl linux_le (load32 linux_le m' linux_le.peer_ack) = 10 ∧
      ¬ checkpoint_invariant linux_le m' :=
  ⟨by decide, _, _, tcpr_checkpoint_output_eq linux_le _ demo_handle _ 20 rfl, rfl,
    by decide, by decide, by decide⟩

/-! ## Teardown -/

/-- C9, as amended: after `tcpr_teardown_connection` the handle has `state`
null and a negative `control_socket`, which is -1 when the descriptor was
non-negative before and unchanged otherwise; one `munmap` is made when `state`
was not null and none otherwise, one `close` when `control_socket` was
non-negative and none otherwise, and no other system call; a second call on
the result, and any call on a handle with null `state` and negative
`control_socket`, changes neither the handle nor the world. -/
theorem teardown_idempotent (T : Target) (w : World) (c : tcpr_connection) :
    (tcpr_teardown_connection T w c).1.state = NULL ∧
    (tcpr_teardown_connection T w c).1.control_socket < 0 ∧
    (0 ≤ c.control_socket → (tcpr_teardown_connection T w c).1.control_socket = -1) ∧
    (c.control_socket < 0 →
      (tcpr_teardown_connection T w c).1.control_socket = c.control_socket) ∧
    unmaps (tcpr_teardown_connection T w c).2.log
      = unmaps w.log + (if c.state = NULL then 0 else 1) ∧
    all_closes (tcpr_teardown_connection T w c).2.log
      = all_closes w.log + (if c.control_socket < 0 then 0 else 1) ∧
    (tcpr_teardown_connection T w c).2.log.length ≤ w.log.length + 2 ∧
    tcpr_teardown_connection T (tcpr_teardown_connection T w c).2
        (tcpr_teardown_connection T w c).1
      = tcpr_teardown_connection T w c ∧
    (c.state = NULL → c.control_socket < 0 → tcpr_teardown_connection T w c = (c, w)) := by
  unfold tcpr_teardown_connection NULL
  by_cases h1 : c.state = 0 <;> by_cases h2 : 0 ≤ c.control_socket
  · have h3 : ¬ c.control_socket < 0 := by omega
    simp [h1, h2, h3, sys_close, unmaps, all_closes, List.filter_append, World.answer]
  · have h3 : c.control_socket < 0 := by omega
    simp [h1, h2, h3]
  · have h3 : ¬ c.control_socket < 0 := by omega
    simp [h1, h2, h3, sys_munmap, sys_close, unmaps, all_closes, List.filter_append,
      World.answer]
  · have h3 : c.control_socket < 0 := by omega
    simp [h1, h2, h3, sys_munmap, unmaps, all_closes, List.filter_append]

theorem teardown_idempotent_witness :
    (tcpr_teardown_connection linux_le (demo_world (demo_record 0 0 0 0) no_files)
      demo_handle).1 = { demo_handle with state := NULL, control_socket := -1 } ∧
    (tcpr_teardown_connection linux_le (demo_world (demo_record 0 0 0 0) no_files)
      demo_handle).1.control_socket < 0 :=
  ⟨by decide,
    (teardown_idempotent linux_le (demo_world (demo_record 0 0 0 0) no_files) demo_handle).2.1⟩

/-- C9, as stated, fails: a handle whose `control_socket` is -2 keeps -2, not
-1, through `tcpr_teardown_connection`. -/
theorem teardown_keeps_negative_socket :
    (tcpr_teardown_connection linux_le (world_empty env_fresh)
      { blank_handle with control_socket := -2 }).1.control_socket = -2 ∧
    (tcpr_teardown_connection linux_le (world_empty env_fresh)
      { blank_handle with control_socket := -2 }).1.control_socket ≠ -1 := by
  decide

/-! ## Setup -/

theorem closes_append (fd : Int) (l l' : List Event) :
    closes fd (l ++ l') = closes fd l + closes fd l' := by
  simp [closes, List.filter_append]

/-! ### What each system call does to the trace, the descriptors and the mappings -/

theorem sys_socket_spec (w : World) :
    (sys_socket w).2.log = w.log ++ [Event.socket (sys_socket w).1] ∧
    (sys_socket w).2.mem = w.mem ∧
    (((sys_socket w).1 = -1 ∧ (sys_socket w).2.fdtab = w.fdtab) ∨
      (0 ≤ (sys_socket w).1 ∧ (w.fdtab (sys_socket w).1).isNone ∧
        (sys_socket w).2.fdtab = Function.update w.fdtab (sys_socket w).1 (some FdObj.sock))) := by
  unfold sys_socket
  by_cases h : 0 ≤ w.answer ∧ (w.fdtab w.answer).isNone = true
  · simp only [h, and_self, if_true, true_and, or_true]
  · simp only [h, if_false, true_and, and_self, true_or]

theorem sys_open_spec (w : World) (path : String) (cr : Bool) :
    (sys_open w path cr).2.log = w.log ++ [Event.open_file path cr (sys_open w path cr).1] ∧
    (sys_open w path cr).2.mem = w.mem ∧
    (((sys_open w path cr).1 = -1 ∧ (sys_open w path cr).2.fdtab = w.fdtab) ∨
      (0 ≤ (sys_open w path cr).1 ∧ (w.fdtab (sys_open w path cr).1).isNone ∧
        (sys_open w path cr).2.fdtab
          = Function.update w.fdtab (sys_open w path cr).1 (some (FdObj.file path)))) := by
  unfold sys_open
  by_cases h : 0 ≤ w.answer ∧ (w.fdtab w.answer).isNone = true ∧
      (cr = true ∨ (w.files path).isSome = true)
  · simp only [h, and_self, if_true, true_and, or_true]
  · simp only [h, if_false, true_and, and_self, true_or]

theorem sys_ftruncate_spec (w : World) (fd : Int) (n : Nat) :
    (sys_ftruncate w fd n).2.log = w.log ++ [Event.ftruncate fd n (sys_ftruncate w fd n).1] ∧
    (sys_ftruncate w fd n).2.mem = w.mem ∧ (sys_ftruncate w fd n).2.fdtab = w.fdtab := by
  unfold sys_ftruncate
  split
  · split
    · simp
    · simp
  · simp

theorem sys_mmap_spec (w : World) (fd : Int) (n : Nat) :
    (sys_mmap w fd n).2.log = w.log ++ [Event.mmap fd n (sys_mmap w fd n).1] ∧
    (sys_mmap w fd n).2.fdtab = w.fdtab ∧
    (((sys_mmap w fd n).1 = MAP_FAILED ∧ (sys_mmap w fd n).2.mem = w.mem) ∨
      (0 < (sys_mmap w fd n).1 ∧
        ((sys_mmap w fd n).2.mem (sys_mmap w fd n).1).isSome)) := by
  unfold sys_mmap
  split
  · by_cases h : 0 < w.answer ∧ (w.mem w.answer).isNone = true
    · simp only [if_pos h]
      simp [h.1]
    · simp only [if_neg h]
      simp
  · simp

theorem sys_close_spec (w : World) (fd : Int) :
    (sys_close w fd).2.log = w.log ++ [Event.close fd (sys_close w fd).1] ∧
    (sys_close w fd).2.mem = w.mem ∧
    (sys_close w fd).2.fdtab = Function.update w.fdtab fd none := by
  simp [sys_close]

theorem sys_unlink_spec (w : World) (path : String) :
    (sys_unlink w path).log = w.log ++ [Event.unlink path] ∧
    (sys_unlink w path).mem = w.mem ∧ (sys_unlink w path).fdtab = w.fdtab := by
  simp [sys_unlink]

theorem sys_bind_spec (w : World) (fd : Int) (path : String) :
    (sys_bind w fd path).2.log = w.log ++ [Event.bind fd path (sys_bind w fd path).1] ∧
    (sys_bind w fd path).2.mem = w.mem ∧ (sys_bind w fd path).2.fdtab = w.fdtab := by
  simp [sys_bind]

theorem fdtab_restore (f : Int → Option FdObj) (k : Int) (v : FdObj)
    (hk : (f k).isNone = true) (fd : Int) :
    Function.update (Function.update f k (some v)) k none fd = f fd := by
  by_cases h : fd = k
  · subst h
    rw [Function.update_same]
    exact (Option.isNone_iff_eq_none.mp hk).symm
  · rw [Function.update_noteq h, Function.update_noteq h]

theorem fdtab_restore_of (f g : Int → Option FdObj) (k : Int) (v : FdObj)
    (hk : (f k).isNone = true) (hg : ∀ fd, g fd = Function.update f k (some v) fd) (fd : Int) :
    Function.update g k none fd = f fd := by
  by_cases h : fd = k
  · subst h
    rw [Function.update_same]
    exact (Option.isNone_iff_eq_none.mp hk).symm
  · rw [Function.update_noteq h, hg, Function.update_noteq h]

theorem ne_of_isSome_isNone (f : Int → Option FdObj) (a b : Int) (ha : (f a).isSome = true)
    (hb : (f b).isNone = true) : b ≠ a := by
  intro h
  subst h
  rw [Option.isNone_iff_eq_none.mp hb] at ha
  simp at ha

/-- What `open_state` does to the trace, the descriptors and the mappings. -/
theorem open_state_spec (T : Target) (w : World) (host : String) (pp p flags : Nat) :
    ∃ evs, (open_state T w host pp p flags).2.log = w.log ++ evs ∧
      (∀ fd, (open_state T w host pp p flags).2.fdtab fd = w.fdtab fd) ∧
      (∀ fd, Event.socket fd ∉ evs) ∧
      (∀ fd, (w.fdtab fd).isSome = true → closes fd evs = 0) ∧
      (∀ fd path cr, 0 ≤ fd → Event.open_file path cr fd ∈ evs →
        (w.fdtab fd).isNone = true ∧ closes fd evs = 1) ∧
      ((open_state T w host pp p flags).1 = NULL →
        ∀ a, (open_state T w host pp p flags).2.mem a = w.mem a) ∧
      ((open_state T w host pp p flags).1 ≠ NULL →
        ((open_state T w host pp p flags).2.mem
          (open_state T w host pp p flags).1).isSome = true) ∧
      (∀ path cr fd, Event.open_file path cr fd ∈ evs → path = state_path T host pp p) ∧
      (∃ cr fd, Event.open_file (state_path T host pp p) cr fd ∈ evs) := by
  unfold open_state
  simp only []
  generalize state_path T host pp p = spath
  generalize decide (flags &&& T.TCPR_CONNECTION_CREATE ≠ 0) = cr0
  obtain ⟨ol, om, ofd⟩ := sys_open_spec w spath cr0
  generalize sys_open w spath cr0 = o at *
  by_cases h1 : o.1 < 0
  · rw [if_pos h1]
    have hfd : o.2.fdtab = w.fdtab := by
      rcases ofd with ⟨-, h⟩ | ⟨h, -⟩
      · exact h
      · omega
    refine ⟨_, ol, fun fd => by rw [hfd], ?_, ?_, ?_, fun _ a => by rw [om],
      fun h => absurd rfl h, ?_, ⟨cr0, o.1, List.mem_singleton.mpr rfl⟩⟩
    · intro fd; simp
    · intro fd _; simp [closes]
    · intro fd path cr h0 hmem
      simp only [List.mem_singleton, Event.open_file.injEq] at hmem
      omega
    · intro path cr fd hmem
      simp only [List.mem_singleton, Event.open_file.injEq] at hmem
      exact hmem.1
  · rw [if_neg h1]
    obtain ⟨hk, hfd⟩ : (w.fdtab o.1).isNone = true ∧
        o.2.fdtab = Function.update w.fdtab o.1 (some (FdObj.file spath)) := by
      rcases ofd with ⟨h, -⟩ | ⟨-, h, h'⟩
      · omega
      · exact ⟨h, h'⟩
    obtain ⟨fl, fm, ffd⟩ := sys_ftruncate_spec o.2 o.1 T.sizeof_tcpr
    generalize sys_ftruncate o.2 o.1 T.sizeof_tcpr = f at *
    by_cases h2 : f.1 < 0
    · rw [if_pos h2]
      obtain ⟨cl, cm, cfd⟩ := sys_close_spec f.2 o.1
      generalize sys_close f.2 o.1 = c at *
      refine ⟨[Event.open_file spath cr0 o.1, Event.ftruncate o.1 T.sizeof_tcpr f.1,
          Event.close o.1 c.1], ?_, ?_, ?_, ?_, ?_, ?_, fun h => absurd rfl h, ?_,
        ⟨cr0, o.1, List.mem_cons_self _ _⟩⟩
      · simp [cl, fl, ol]
      · intro fd
        simp only [cfd, ffd, hfd]
        exact fdtab_restore _ _ _ hk fd
      · intro fd; simp
      · intro fd hs
        have := ne_of_isSome_isNone _ _ _ hs hk
        simp [closes, List.filter_cons, this]
      · intro fd path cr h0 hmem
        simp only [List.mem_cons, Event.open_file.injEq, List.mem_singleton, reduceCtorEq,
          or_false, List.not_mem_nil] at hmem
        obtain ⟨-, -, rfl⟩ := hmem
        exact ⟨hk, by simp [closes, List.filter_cons]⟩
      · intro _ a
        simp only [cm, fm, om]
      · intro path cr fd hmem
        simp only [List.mem_cons, Event.open_file.injEq, List.mem_singleton, reduceCtorEq,
          or_false, List.not_mem_nil] at hmem
        exact hmem.1
    · rw [if_neg h2]
      obtain ⟨tl, tfd, tm⟩ := sys_mmap_spec f.2 o.1 T.sizeof_tcpr
      generalize sys_mmap f.2 o.1 T.sizeof_tcpr = t at *
      obtain ⟨cl, cm, cfd⟩ := sys_close_spec t.2 o.1
      generalize sys_close t.2 o.1 = c at *
      refine ⟨[Event.open_file spath cr0 o.1, Event.ftruncate o.1 T.sizeof_tcpr f.1,
          Event.mmap o.1 T.sizeof_tcpr t.1, Event.close o.1 c.1], ?_, ?_, ?_, ?_, ?_, ?_, ?_, ?_,
        ⟨cr0, o.1, List.mem_cons_self _ _⟩⟩
      · simp [cl, tl, fl, ol]
      · intro fd
        simp only [cfd, tfd, ffd, hfd]
        exact fdtab_restore _ _ _ hk fd
      · intro fd; simp
      · intro fd hs
        have := ne_of_isSome_isNone _ _ _ hs hk
        simp [closes, List.filter_cons, this]
      · intro fd path cr h0 hmem
        simp only [List.mem_cons, Event.open_file.injEq, List.mem_singleton, reduceCtorEq,
          or_false, List.not_mem_nil] at hmem
        obtain ⟨-, -, rfl⟩ := hmem
        exact ⟨hk, by simp [closes, List.filter_cons]⟩
      · intro hnull a
        rcases tm with ⟨-, h⟩ | ⟨h, -⟩
        · simp only [cm, h, fm, om]
        · exfalso
          simp only [] at hnull
          split_ifs at hnull with h3
          · simp only [MAP_FAILED] at h3; omega
          · simp only [NULL] at hnull; omega
      · intro hnn
        simp only [] at hnn ⊢
        rcases tm with ⟨h, -⟩ | ⟨h, h'⟩
        · rw [if_pos h] at hnn
          exact absurd rfl hnn
        · have h3 : ¬ t.1 = MAP_FAILED := by simp only [MAP_FAILED]; omega
          rw [if_neg h3, cm]
          exact h'
      · intro path cr fd hmem
        simp only [List.mem_cons, Event.open_file.injEq, List.mem_singleton, reduceCtorEq,
          or_false, List.not_mem_nil] at hmem
        exact hmem.1

/-- What `tcpr_setup_connection` does to the handle, the trace, the descriptors
and the mappings, by its result. -/
theorem setup_connection_facts (T : Target) (w : World) (c : tcpr_connection)
    (peer_address peer_port port flags : Nat) :
    ∃ evs,
      (tcpr_setup_connection T w c peer_address peer_port port flags).2.2.log = w.log ++ evs ∧
      ((tcpr_setup_connection T w c peer_address peer_port port flags).1 = -1 ∨
        (tcpr_setup_connection T w c peer_address peer_port port flags).1 = 0) ∧
      ((tcpr_setup_connection T w c peer_address peer_port port flags).1 = -1 →
        (tcpr_setup_connection T w c peer_address peer_port port flags).2.1.state = NULL ∧
        (tcpr_setup_connection T w c peer_address peer_port port flags).2.1.control_socket < 0 ∧
        (∀ fd, 0 ≤ fd → Event.socket fd ∈ evs → closes fd evs = 1) ∧
        (∀ fd path cr, 0 ≤ fd → Event.open_file path cr fd ∈ evs → closes fd evs = 1) ∧
        (∀ fd, (tcpr_setup_connection T w c peer_address peer_port port flags).2.2.fdtab fd
          = w.fdtab fd) ∧
        (∀ a, (tcpr_setup_connection T w c peer_address peer_port port flags).2.2.mem a
          = w.mem a)) ∧
      ((tcpr_setup_connection T w c peer_address peer_port port flags).1 = 0 →
        (tcpr_setup_connection T w c peer_address peer_port port flags).2.1.state ≠ NULL ∧
        0 ≤ (tcpr_setup_connection T w c peer_address peer_port port flags).2.1.control_socket ∧
        ((tcpr_setup_connection T w c peer_address peer_port port flags).2.2.mem
          (tcpr_setup_connection T w c peer_address peer_port port flags).2.1.state).isSome
            = true ∧
        (tcpr_setup_connection T w c peer_address peer_port port flags).2.2.fdtab
          (tcpr_setup_connection T w c peer_address peer_port port flags).2.1.control_socket
            = some FdObj.sock ∧
        (∀ fd path cr, 0 ≤ fd → Event.open_file path cr fd ∈ evs → closes fd evs = 1)) ∧
      (∀ path cr fd, Event.open_file path cr fd ∈ evs →
        path = state_path T (inet_ntop T peer_address) peer_port port) ∧
      ((tcpr_setup_connection T w c peer_address peer_port port flags).1 = 0 →
        (tcpr_setup_connection T w c peer_address peer_port port flags).2.1.control_address
          = setup_control_address T (inet_ntop T peer_address) peer_port port ∧
        ∃ cr fd, Event.open_file (state_path T (inet_ntop T peer_address) peer_port port) cr fd
          ∈ evs) := by
  unfold tcpr_setup_connection
  simp only []
  generalize inet_ntop T peer_address = host
  generalize setup_control_address T host peer_port port = addr
  obtain ⟨sl, sm, sfd⟩ := sys_socket_spec w
  generalize sys_socket w = s at *
  by_cases h1 : s.1 < 0
  · rw [if_pos h1]
    have hfd : s.2.fdtab = w.fdtab := by
      rcases sfd with ⟨-, h⟩ | ⟨h, -⟩
      · exact h
      · omega
    refine ⟨[Event.socket s.1], sl, Or.inl rfl, fun _ => ⟨rfl, h1, ?_, ?_, ?_, ?_⟩,
      fun h => absurd h (by simp), ?_, fun h => absurd h (by simp)⟩
    · intro fd h0 hmem
      simp only [List.mem_singleton, Event.socket.injEq] at hmem
      omega
    · intro fd path cr _ hmem
      simp at hmem
    · intro fd; simp only [hfd]
    · intro a; simp only [sm]
    · intro path cr fd hmem
      simp at hmem
  · rw [if_neg h1]
    obtain ⟨hk, hfd⟩ : (w.fdtab s.1).isNone = true ∧
        s.2.fdtab = Function.update w.fdtab s.1 (some FdObj.sock) := by
      rcases sfd with ⟨h, -⟩ | ⟨-, h, h'⟩
      · omega
      · exact ⟨h, h'⟩
    by_cases hflag : flags &&& T.TCPR_CONNECTION_FILTER ≠ 0
    · rw [if_pos hflag]
      obtain ⟨ul, um, ufd⟩ := sys_unlink_spec s.2 addr.sun_path
      generalize sys_unlink s.2 addr.sun_path = u at *
      obtain ⟨bl, bm, bfd⟩ := sys_bind_spec u s.1 addr.sun_path
      generalize sys_bind u s.1 addr.sun_path = b at *
      by_cases h2 : b.1 < 0
      · rw [if_pos h2]
        obtain ⟨cl, cm, cfd⟩ := sys_close_spec b.2 s.1
        generalize sys_close b.2 s.1 = k at *
        refine ⟨[Event.socket s.1, Event.unlink addr.sun_path, Event.bind s.1 addr.sun_path b.1,
            Event.close s.1 k.1], ?_, Or.inl rfl,
          fun _ => ⟨rfl, by simp, ?_, ?_, ?_, ?_⟩, fun h => absurd h (by simp), ?_, fun h => absurd h (by simp)⟩
        · simp [cl, bl, ul, sl]
        · intro fd h0 hmem
          simp only [List.mem_cons, Event.socket.injEq, reduceCtorEq, List.mem_singleton,
            or_false, List.not_mem_nil] at hmem
          subst hmem
          simp [closes, List.filter_cons]
        · intro fd path cr _ hmem
          simp at hmem
        · intro fd
          simp only [cfd, bfd, ufd, hfd]
          exact fdtab_restore _ _ _ hk fd
        · intro a; simp only [cm, bm, um, sm]
        · intro path cr fd hmem
          simp at hmem
      · rw [if_neg h2]
        obtain ⟨evs, ol, ofd, onosock, oclz, oopen, onull, omap, opath, oex⟩ :=
          open_state_spec T b.2 host peer_port port flags
        generalize open_state T b.2 host peer_port port flags = st at *
        have hsome : (b.2.fdtab s.1).isSome = true := by
          simp [bfd, ufd, hfd]
        by_cases h3 : st.1 = NULL
        · rw [if_pos h3]
          obtain ⟨vl, vm, vfd⟩ := sys_unlink_spec st.2 addr.sun_path
          generalize sys_unlink st.2 addr.sun_path = v at *
          obtain ⟨cl, cm, cfd⟩ := sys_close_spec v s.1
          generalize sys_close v s.1 = k at *
          refine ⟨[Event.socket s.1, Event.unlink addr.sun_path,
              Event.bind s.1 addr.sun_path b.1] ++ evs ++ [Event.unlink addr.sun_path,
              Event.close s.1 k.1], ?_, Or.inl rfl,
            fun _ => ⟨h3, by simp, ?_, ?_, ?_, ?_⟩, fun h => absurd h (by simp), ?_, fun h => absurd h (by simp)⟩
          · simp [cl, vl, ol, bl, ul, sl]
          · intro fd h0 hmem
            have : fd = s.1 := by
              simp only [List.mem_append, List.mem_cons, Event.socket.injEq, reduceCtorEq,
                List.mem_singleton, or_false, List.not_mem_nil, false_or, onosock] at hmem
              exact hmem
            subst this
            rw [closes_append, closes_append, oclz _ hsome]
            simp [closes, List.filter_cons]
          · intro fd path cr h0 hmem
            have hin : Event.open_file path cr fd ∈ evs := by
              simpa using hmem
            obtain ⟨hnone, hone⟩ := oopen fd path cr h0 hin
            have hne : fd ≠ s.1 := ne_of_isSome_isNone _ _ _ hsome hnone
            rw [closes_append, closes_append, hone]
            simp [closes, List.filter_cons, Ne.symm hne]
          · intro fd
            rw [cfd, vfd]
            exact fdtab_restore_of _ _ _ FdObj.sock hk
              (fun x => by rw [ofd, bfd, ufd, hfd]) fd
          · intro a
            simp only [cm, vm, onull h3, bm, um, sm]
          · intro path cr fd hmem
            exact opath path cr fd (by simpa using hmem)
        · rw [if_neg h3]
          refine ⟨[Event.socket s.1, Event.unlink addr.sun_path,
              Event.bind s.1 addr.sun_path b.1] ++ evs, ?_, Or.inr rfl,
            fun h => absurd h (by simp), fun _ => ⟨h3, not_lt.mp h1, omap h3, ?_, ?_⟩, ?_,
            fun _ => ⟨rfl, oex.imp fun cr h => h.imp fun fd h' => List.mem_append_right _ h'⟩⟩
          · simp [ol, bl, ul, sl]
          · simp [ofd, bfd, ufd, hfd]
          · intro fd path cr h0 hmem
            have hin : Event.open_file path cr fd ∈ evs := by
              simpa using hmem
            obtain ⟨hnone, hone⟩ := oopen fd path cr h0 hin
            rw [closes_append, hone]
            simp [closes, List.filter_cons]
          · intro path cr fd hmem
            exact opath path cr fd (by simpa using hmem)
    · rw [if_neg hflag]
      obtain ⟨evs, ol, ofd, onosock, oclz, oopen, onull, omap, opath, oex⟩ :=
        open_state_spec T s.2 host peer_port port flags
      generalize open_state T s.2 host peer_port port flags = st at *
      have hsome : (s.2.fdtab s.1).isSome = true := by
        simp [hfd]
      by_cases h3 : st.1 = NULL
      · rw [if_pos h3]
        obtain ⟨cl, cm, cfd⟩ := sys_close_spec st.2 s.1
        generalize sys_close st.2 s.1 = k at *
        refine ⟨[Event.socket s.1] ++ evs ++ [Event.close s.1 k.1], ?_, Or.inl rfl,
          fun _ => ⟨h3, by simp, ?_, ?_, ?_, ?_⟩, fun h => absurd h (by simp), ?_, fun h => absurd h (by simp)⟩
        · simp [cl, ol, sl]
        · intro fd h0 hmem
          have : fd = s.1 := by
            simp only [List.mem_append, List.mem_cons, Event.socket.injEq, reduceCtorEq,
              List.mem_singleton, or_false, List.not_mem_nil, false_or, onosock] at hmem
            exact hmem
          subst this
          rw [closes_append, closes_append, oclz _ hsome]
          simp [closes, List.filter_cons]
        · intro fd path cr h0 hmem
          have hin : Event.open_file path cr fd ∈ evs := by
            simpa using hmem
          obtain ⟨hnone, hone⟩ := oopen fd path cr h0 hin
          have hne : fd ≠ s.1 := ne_of_isSome_isNone _ _ _ hsome hnone
          rw [closes_append, closes_append, hone]
          simp [closes, List.filter_cons, Ne.symm hne]
        · intro fd
          rw [cfd]
          exact fdtab_restore_of _ _ _ FdObj.sock hk (fun x => by rw [ofd, hfd]) fd
        · intro a
          simp only [cm, onull h3, sm]
        · intro path cr fd hmem
          exact opath path cr fd (by simpa using hmem)
      · rw [if_neg h3]
        refine ⟨[Event.socket s.1] ++ evs, ?_, Or.inr rfl,
          fun h => absurd h (by simp), fun _ => ⟨h3, not_lt.mp h1, omap h3, ?_, ?_⟩, ?_,
            fun _ => ⟨rfl, oex.imp fun cr h => h.imp fun fd h' => List.mem_append_right _ h'⟩⟩
        · simp [ol, sl]
        · simp [ofd, hfd]
        · intro fd path cr h0 hmem
          have hin : Event.open_file path cr fd ∈ evs := by
            simpa using hmem
          obtain ⟨hnone, hone⟩ := oopen fd path cr h0 hin
          rw [closes_append, hone]
          simp [closes, List.filter_cons]
        · intro path cr fd hmem
          exact opath path cr fd (by simpa using hmem)

/-- C8: `tcpr_setup_connection` returns -1 or 0. When it returns -1, `state` is
null and `control_socket` is negative, every descriptor that `socket` handed
out during the call and every descriptor that `open` handed out for the state
file has been closed exactly once, and the descriptor table and the mappings
are what they were before the call. When it returns 0, `state` is not null and
is the address of a mapped record, `control_socket` is non-negative and is an
open socket, and the descriptor opened for the state file has been closed. -/
theorem setup_connection_spec (T : Target) (w : World) (c : tcpr_connection)
    (peer_address peer_port port flags : Nat) :
    ∃ evs,
      (tcpr_setup_connection T w c peer_address peer_port port flags).2.2.log = w.log ++ evs ∧
      ((tcpr_setup_connection T w c peer_address peer_port port flags).1 = -1 ∨
        (tcpr_setup_connection T w c peer_address peer_port port flags).1 = 0) ∧
      ((tcpr_setup_connection T w c peer_address peer_port port flags).1 = -1 →
        (tcpr_setup_connection T w c peer_address peer_port port flags).2.1.state = NULL ∧
        (tcpr_setup_connection T w c peer_address peer_port port flags).2.1.control_socket < 0 ∧
        (∀ fd, 0 ≤ fd → Event.socket fd ∈ evs → closes fd evs = 1) ∧
        (∀ fd path cr, 0 ≤ fd → Event.open_file path cr fd ∈ evs → closes fd evs = 1) ∧
        (∀ fd, (tcpr_setup_connection T w c peer_address peer_port port flags).2.2.fdtab fd
          = w.fdtab fd) ∧
        (∀ a, (tcpr_setup_connection T w c peer_address peer_port port flags).2.2.mem a
          = w.mem a)) ∧
      ((tcpr_setup_connection T w c peer_address peer_port port flags).1 = 0 →
        (tcpr_setup_connection T w c peer_address peer_port port flags).2.1.state ≠ NULL ∧
        0 ≤ (tcpr_setup_connection T w c peer_address peer_port port flags).2.1.control_socket ∧
        ((tcpr_setup_connection T w c peer_address peer_port port flags).2.2.mem
          (tcpr_setup_connection T w c peer_address peer_port port flags).2.1.state).isSome
            = true ∧
        (tcpr_setup_connection T w c peer_address peer_port port flags).2.2.fdtab
          (tcpr_setup_connection T w c peer_address peer_port port flags).2.1.control_socket
            = some FdObj.sock ∧
        (∀ fd path cr, 0 ≤ fd → Event.open_file path cr fd ∈ evs → closes fd evs = 1)) := by
  obtain ⟨evs, h1, h2, h3, h4, -, -⟩ :=
    setup_connection_facts T w c peer_address peer_port port flags
  exact ⟨evs, h1, h2, h3, h4⟩

theorem setup_connection_spec_witness :
    ((tcpr_setup_connection linux_le (world_empty env_fresh) blank_handle 16777343
        (htons linux_le 9999) (htons linux_le 8888) 0).1 = -1 ∧
      (tcpr_setup_connection linux_le (world_empty env_fresh) blank_handle 16777343
        (htons linux_le 9999) (htons linux_le 8888) 0).2.1.state = NULL ∧
      (tcpr_setup_connection linux_le (world_empty env_fresh) blank_handle 16777343
        (htons linux_le 9999) (htons linux_le 8888) 0).2.1.control_socket < 0) ∧
    ((tcpr_setup_connection linux_le (world_empty env_fail) blank_handle 16777343
        (htons linux_le 9999) (htons linux_le 8888) 3).1 = -1 ∧
      (tcpr_setup_connection linux_le (world_empty env_fail) blank_handle 16777343
        (htons linux_le 9999) (htons linux_le 8888) 3).2.1.state = NULL) ∧
    ((tcpr_setup_connection linux_le (world_empty env_fresh) blank_handle 16777343
        (htons linux_le 9999) (htons linux_le 8888) 3).1 = 0 ∧
      (tcpr_setup_connection linux_le (world_empty env_fresh) blank_handle 16777343
        (htons linux_le 9999) (htons linux_le 8888) 3).2.1.state ≠ NULL ∧
      0 ≤ (tcpr_setup_connection linux_le (world_empty env_fresh) blank_handle 16777343
        (htons linux_le 9999) (htons linux_le 8888) 3).2.1.control_socket) := by
  obtain ⟨_, -, -, hfail, -⟩ := setup_connection_spec linux_le (world_empty env_fresh)
    blank_handle 16777343 (htons linux_le 9999) (htons linux_le 8888) 0
  obtain ⟨_, -, -, hfail2, -⟩ := setup_connection_spec linux_le (world_empty env_fail)
    blank_handle 16777343 (htons linux_le 9999) (htons linux_le 8888) 3
  obtain ⟨_, -, -, -, hok⟩ := setup_connection_spec linux_le (world_empty env_fresh)
    blank_handle 16777343 (htons linux_le 9999) (htons linux_le 8888) 3
  have h : (tcpr_setup_connection linux_le (world_empty env_fresh) blank_handle 16777343
      (htons linux_le 9999) (htons linux_le 8888) 0).1 = -1 := by decide
  have h2 : (tcpr_setup_connection linux_le (world_empty env_fail) blank_handle 16777343
      (htons linux_le 9999) (htons linux_le 8888) 3).1 = -1 := by decide
  have h3 : (tcpr_setup_connection linux_le (world_empty env_fresh) blank_handle 16777343
      (htons linux_le 9999) (htons linux_le 8888) 3).1 = 0 := by decide
  exact ⟨⟨h, (hfail h).1, (hfail h).2.1⟩, ⟨h2, (hfail2 h2).1⟩, ⟨h3, (hok h3).1, (hok h3).2.1⟩⟩

theorem region_of_resize_nil (n : Nat) : region_of (resize [] n) = zero_region := by
  funext i
  simp only [region_of, resize, zero_region, List.take_nil, List.nil_append, List.length_nil,
    Nat.sub_zero]
  by_cases h : i < n
  · simp [List.getD_eq_getElem?_getD, List.getElem?_replicate, h]
  · simp [List.getD_eq_getElem?_getD, List.getElem?_replicate, h]

/-- A backing file that `open_state` creates is mapped as an all-zero record. -/
theorem open_state_creates_zero (T : Target) (w : World) (host : String) (pp p flags : Nat)
    (hflag : flags &&& T.TCPR_CONNECTION_CREATE ≠ 0)
    (habs : w.files (state_path T host pp p) = none)
    (h0 : 0 ≤ w.env w.log.length) (hfree : (w.fdtab (w.env w.log.length)).isNone = true)
    (h1 : 0 ≤ w.env (w.log.length + 1))
    (h2 : 0 < w.env (w.log.length + 2))
    (hmap : (w.mem (w.env (w.log.length + 2))).isNone = true) :
    (open_state T w host pp p flags).1 = w.env (w.log.length + 2) ∧
    (open_state T w host pp p flags).2.mem (w.env (w.log.length + 2)) = some zero_region := by
  unfold open_state
  simp only []
  generalize state_path T host pp p = spath at *
  have e1 : sys_open w spath (decide (flags &&& T.TCPR_CONNECTION_CREATE ≠ 0)) = (w.answer,
      { w with fdtab := Function.update w.fdtab w.answer (some (FdObj.file spath)),
               files := Function.update w.files spath (some []),
               log := w.log ++ [Event.open_file spath true w.answer] }) := by
    simp only [sys_open, hflag, ne_eq, not_false_eq_true, decide_True]
    rw [if_pos ⟨h0, hfree, Or.inl trivial⟩, habs]
    rfl
  rw [e1]
  simp only []
  rw [if_neg (by simp only [World.answer]; omega)]
  have e2 : sys_ftruncate
      { w with fdtab := Function.update w.fdtab w.answer (some (FdObj.file spath)),
               files := Function.update w.files spath (some []),
               log := w.log ++ [Event.open_file spath true w.answer] }
      w.answer T.sizeof_tcpr = (0,
      { w with fdtab := Function.update w.fdtab w.answer (some (FdObj.file spath)),
               files := Function.update w.files spath (some (resize [] T.sizeof_tcpr)),
               log := w.log ++ [Event.open_file spath true w.answer,
                 Event.ftruncate w.answer T.sizeof_tcpr 0] }) := by
    simp only [sys_ftruncate, Function.update_same, World.answer, List.length_append,
      List.length_singleton]
    rw [if_pos h1]
    simp
  rw [e2]
  simp only []
  rw [if_neg (by decide)]
  have e3 : sys_mmap
      { w with fdtab := Function.update w.fdtab w.answer (some (FdObj.file spath)),
               files := Function.update w.files spath (some (resize [] T.sizeof_tcpr)),
               log := w.log ++ [Event.open_file spath true w.answer,
                 Event.ftruncate w.answer T.sizeof_tcpr 0] }
      w.answer T.sizeof_tcpr = (w.env (w.log.length + 2),
      { w with fdtab := Function.update w.fdtab w.answer (some (FdObj.file spath)),
               files := Function.update w.files spath (some (resize [] T.sizeof_tcpr)),
               mem := Function.update w.mem (w.env (w.log.length + 2)) (some zero_region),
               log := w.log ++ [Event.open_file spath true w.answer,
                 Event.ftruncate w.answer T.sizeof_tcpr 0,
                 Event.mmap w.answer T.sizeof_tcpr (w.env (w.log.length + 2))] }) := by
    simp only [sys_mmap, Function.update_same, World.answer, List.length_append,
      List.length_cons, List.length_nil]
    rw [if_pos ⟨h2, hmap⟩]
    simp [region_of_resize_nil]
  rw [e3]
  simp only [sys_close]
  have h3 : ¬ w.env (w.log.length + 2) = MAP_FAILED := by
    simp only [MAP_FAILED]; omega
  rw [if_neg h3]
  simp


/-! ## Save and recover -/

theorem block_length (m : Region) (o n : Nat) : (block m o n).length = n := by
  simp [block]

theorem blit_outside (m : Region) (o : Nat) (bs : List Byte) (i : Nat)
    (h : i < o ∨ o + bs.length ≤ i) : blit m o bs i = m i := by
  unfold blit
  rw [if_neg (by omega)]

theorem blit_inside (m : Region) (o : Nat) (bs : List Byte) (k : Nat) (h : k < bs.length) :
    blit m o bs (o + k) = bs[k] := by
  unfold blit
  rw [if_pos (by omega)]
  simp [List.getD_eq_getElem?_getD, h]

theorem sys_creat_ok (w : World) (path : String) (h0 : 0 ≤ w.answer)
    (hfree : (w.fdtab w.answer).isNone = true) :
    sys_creat w path = (w.answer,
      { w with fdtab := Function.update w.fdtab w.answer (some (FdObj.file path)),
               files := Function.update w.files path (some []),
               log := w.log ++ [Event.creat path w.answer] }) := by
  simp only [sys_creat]
  rw [if_pos ⟨h0, hfree⟩]

theorem sys_open_ok (w : World) (path : String) (cr : Bool) (bs : List Byte)
    (h0 : 0 ≤ w.answer) (hfree : (w.fdtab w.answer).isNone = true)
    (hfile : w.files path = some bs) :
    sys_open w path cr = (w.answer,
      { w with fdtab := Function.update w.fdtab w.answer (some (FdObj.file path)),
               files := Function.update w.files path (some bs),
               log := w.log ++ [Event.open_file path cr w.answer] }) := by
  simp only [sys_open]
  rw [if_pos ⟨h0, hfree, Or.inr (by rw [hfile]; rfl)⟩, hfile]
  rfl

theorem sys_write_ok (w : World) (fd : Int) (path : String) (bs : List Byte)
    (hfd : w.fdtab fd = some (FdObj.file path)) (hfile : w.files path = some [])
    (h : Int.ofNat bs.length ≤ w.answer) :
    sys_write w fd bs = (Int.ofNat bs.length,
      { w with files := Function.update w.files path (some bs),
               log := w.log ++ [Event.write fd bs.length (Int.ofNat bs.length)] }) := by
  have h0 : 0 ≤ w.answer := le_trans (Int.ofNat_nonneg _) h
  have hk : min w.answer.toNat bs.length = bs.length := by
    have := Int.toNat_of_nonneg h0
    simp only [Int.ofNat_eq_coe] at h
    omega
  simp only [sys_write, hfd, hfile]
  rw [if_pos h0]
  simp only [hk, List.take_length, Option.getD_some, List.drop_nil, List.append_nil,
    Int.ofNat_eq_coe]

theorem sys_read_ok (w : World) (fd : Int) (path : String) (bs : List Byte) (n : Nat)
    (hfd : w.fdtab fd = some (FdObj.file path)) (hfile : w.files path = some bs)
    (h0 : 0 ≤ w.answer) :
    sys_read w fd n = (some (bs.take n),
      { w with log := w.log ++ [Event.read fd n (bs.take n).length] }) := by
  simp only [sys_read, hfd, hfile]
  rw [if_pos h0]
  rfl

theorem sys_close_ok (w : World) (fd : Int) (h0 : 0 ≤ w.answer) :
    sys_close w fd = (0,
      { w with fdtab := Function.update w.fdtab fd none, log := w.log ++ [Event.close fd 0] }) := by
  simp only [sys_close]
  rw [if_neg (by omega)]

theorem teardown_state_save_ok (T : Target) (w : World) (s : state) (x : Region) (f : String)
    (hx : w.mem s.tcpr.state = some x) (hsave : s.save_file = some f)
    (h0 : 0 ≤ w.env w.log.length) (hfree : (w.fdtab (w.env w.log.length)).isNone = true)
    (h1 : Int.ofNat T.sizeof_saved ≤ w.env (w.log.length + 1))
    (h2 : 0 ≤ w.env (w.log.length + 2)) :
    ∃ w1, teardown_state_save T w s = Except.ok w1 ∧
      w1.files f = some (block x T.saved T.sizeof_saved) ∧ w1.mem = w.mem ∧
      w1.log.length = w.log.length + 3 := by
  unfold teardown_state_save
  rw [hsave]
  simp only []
  rw [sys_creat_ok w f h0 hfree]
  simp only [hx]
  rw [if_neg (by simp only [World.answer]; omega)]
  rw [sys_write_ok _ w.answer f (block x T.saved T.sizeof_saved)
    (by simp) (by simp)
    (by simpa [World.answer, block_length] using h1)]
  simp only [block_length]
  rw [if_neg (by simp)]
  rw [sys_close_ok _ _ (by simpa [World.answer] using h2)]
  simp only []
  rw [if_neg (by omega)]
  exact ⟨_, rfl, by simp, rfl, by simp⟩

theorem update_state_recover_ok (T : Target) (w : World) (r : state) (g : String)
    (bs : List Byte) (m0 : Region)
    (hrec : r.recovery_file = some g) (hfile : w.files g = some bs)
    (hlen : bs.length = T.sizeof_saved) (hm : w.mem r.tcpr.state = some m0)
    (h0 : 0 ≤ w.env w.log.length) (hfree : (w.fdtab (w.env w.log.length)).isNone = true)
    (h1 : 0 ≤ w.env (w.log.length + 1)) (h2 : 0 ≤ w.env (w.log.length + 2)) :
    ∃ w1, update_state_recover T w r = Except.ok w1 ∧
      w1.mem r.tcpr.state = some (blit m0 T.saved bs) := by
  unfold update_state_recover
  rw [hrec]
  simp only []
  rw [sys_open_ok w g false bs h0 hfree hfile]
  simp only []
  rw [if_neg (by simp only [World.answer]; omega)]
  rw [sys_read_ok _ w.answer g bs T.sizeof_saved (by simp) (by simp)
    (by simpa [World.answer] using h1)]
  simp only [hm]
  rw [if_neg (by simp [hlen])]
  rw [sys_close_ok _ _ (by simpa [World.answer] using h2)]
  simp only []
  rw [if_neg (by omega)]
  refine ⟨_, rfl, ?_⟩
  simp only [Function.update_same]
  rw [List.take_of_length_le (by omega)]

theorem update_state_recover_short (T : Target) (w : World) (r : state) (g : String)
    (bs : List Byte) (hrec : r.recovery_file = some g) (hfile : w.files g = some bs)
    (hlen : bs.length < T.sizeof_saved) :
    update_state_recover T w r = Except.error Fault.exit_failure := by
  unfold update_state_recover
  rw [hrec]
  simp only []
  by_cases hc : 0 ≤ w.answer ∧ (w.fdtab w.answer).isNone = true
  · rw [sys_open_ok w g false bs hc.1 hc.2 hfile]
    simp only []
    rw [if_neg (by omega)]
    by_cases hr : 0 ≤ w.env (w.log.length + 1)
    · rw [sys_read_ok _ w.answer g bs T.sizeof_saved (by simp) (by simp)
        (by simpa [World.answer] using hr)]
      simp only []
      cases hmm : w.mem r.tcpr.state with
      | none => rfl
      | some m =>
        simp only []
        rw [if_pos (by simp; omega)]
    · have e : (sys_read
          { w with fdtab := Function.update w.fdtab w.answer (some (FdObj.file g)),
                   files := Function.update w.files g (some bs),
                   log := w.log ++ [Event.open_file g false w.answer] }
          w.answer T.sizeof_saved).1 = none := by
        simp only [sys_read, Function.update_same]
        rw [if_neg (by simpa [World.answer] using hr)]
      simp only [e]
  · have e : (sys_open w g false).1 = -1 := by
      simp only [sys_open]
      rw [if_neg (fun h => hc ⟨h.1, h.2.1⟩)]
    rw [if_pos (by rw [e]; decide)]

theorem load32_zero (T : Target) (m : Region) (o : Nat) (h : ∀ k, k < 4 → m (o + k) = 0) :
    load32 T m o = 0 := by
  have e0 := h 0 (by omega)
  simp only [Nat.add_zero] at e0
  unfold load32
  rw [e0, h 1 (by omega), h 2 (by omega), h 3 (by omega)]
  simp

theorem load16_zero (T : Target) (m : Region) (o : Nat) (h : ∀ k, k < 2 → m (o + k) = 0) :
    load16 T m o = 0 := by
  have e0 := h 0 (by omega)
  simp only [Nat.add_zero] at e0
  unfold load16
  rw [e0, h 1 (by omega)]
  simp

theorem load8_zero (m : Region) (o : Nat) (h : m o = 0) : load8 m o = 0 := by
  unfold load8
  rw [h]
  rfl

theorem filter_state_zero_of_outside (T : Target) (hT : T.WF) (m : Region)
    (hz : ∀ i, i < T.saved ∨ T.saved + T.sizeof_saved ≤ i → m i = 0) :
    filter_state_zero T m := by
  simp only [Target.WF, Target.saved_members, Target.filter_members, List.pairwise_cons,
    List.mem_cons, List.mem_singleton, forall_eq_or_imp, forall_eq, List.not_mem_nil,
    IsEmpty.forall_iff, List.Pairwise.nil, and_true, implies_true, List.mem_nil_iff] at hT
  obtain ⟨-, -, ⟨⟨o1, -⟩, ⟨o2, -⟩, ⟨o3, -⟩, ⟨o4, -⟩, ⟨o5, -⟩, ⟨o6, -⟩, ⟨o7, -⟩, ⟨o8, -⟩,
    ⟨o9, -⟩, ⟨o10, -⟩, ⟨o11, -⟩, o12, -⟩, -⟩ := hT
  have key : ∀ o wd, (o + wd ≤ T.saved ∨ T.saved + T.sizeof_saved ≤ o) →
      ∀ k, k < wd → m (o + k) = 0 := fun o wd ho k hk => hz (o + k) (by omega)
  have key1 : ∀ o, (o + 1 ≤ T.saved ∨ T.saved + T.sizeof_saved ≤ o) → m o = 0 :=
    fun o ho => hz o (by omega)
  unfold filter_state_zero
  exact ⟨load32_zero T m _ (key _ 4 o1), load32_zero T m _ (key _ 4 o2),
    load32_zero T m _ (key _ 4 o3), load8_zero m _ (key1 _ o4),
    load32_zero T m _ (key _ 4 o5), load16_zero T m _ (key _ 2 o6),
    load32_zero T m _ (key _ 4 o7), load8_zero m _ (key1 _ o8),
    load32_zero T m _ (key _ 4 o9), load8_zero m _ (key1 _ o10),
    load16_zero T m _ (key _ 2 o11), load8_zero m _ (key1 _ o12)⟩

theorem update_state_idle (T : Target) (w : World) (r : state) (ho : r.output_bytes = 0)
    (hi : r.input_bytes = 0) :
    update_state_output T w r = Except.ok w ∧ update_state_input T w r = Except.ok w := by
  simp [update_state_output, update_state_input, ho, hi]

theorem block_getElem? (m : Region) (o n i : Nat) (h : i < n) :
    (block m o n)[i]? = some (m (o + i)) := by
  simp [block, List.getElem?_map, List.getElem?_range, h]

theorem block_getElem (m : Region) (o n i : Nat) (h : i < (block m o n).length) :
    (block m o n)[i] = m (o + i) := by
  simp [block]

theorem tcpr_teardown_connection_files (T : Target) (w : World) (c : tcpr_connection) :
    (tcpr_teardown_connection T w c).2.files = w.files := by
  simp only [tcpr_teardown_connection, sys_munmap, sys_close]
  split_ifs <;> rfl

theorem tcpr_destroy_connection_files (T : Target) (w : World) (a pp p : Nat) (f : String)
    (h1 : f ≠ state_path T (inet_ntop T a) pp p)
    (h2 : f ≠ (setup_control_address T (inet_ntop T a) pp p).sun_path) :
    (tcpr_destroy_connection T w a pp p).files f = w.files f := by
  simp only [state_path, setup_control_address] at h1 h2
  simp only [tcpr_destroy_connection, sys_unlink]
  rw [Function.update_noteq h2, Function.update_noteq h1]

/-- C4: when `creat`, `write` and `close` succeed, `teardown_state` leaves a save
file of `sizeof(saved)` bytes whose byte `i` is the byte at offset `i` of the
`saved` group of the mapped record `x` (with the destroy option too, as long as
the save file is not one of the two files destroyed). When `open`, `read` and
`close` succeed, the recovering step of `update_state` on a file of that
content yields a record whose `saved` group holds, offset by offset, the bytes
of that of `x`, and whose bytes outside the group are what they were: on an
all-zero record every filter-owned member still reads as zero. With no input
or output option that is the whole of `update_state`. On a recovery file
shorter than the group, `update_state` ends in `exit(EXIT_FAILURE)`. -/
theorem save_recover_roundtrip (T : Target) (hT : T.WF) (w : World) (s : state) (x : Region)
    (f : String)
    (hx : w.mem s.tcpr.state = some x) (hsave : s.save_file = some f)
    (hkeep : s.destroy ≠ 0 →
      f ≠ state_path T (inet_ntop T s.peer_address.sin_addr) s.peer_address.sin_port
            s.address.sin_port ∧
      f ≠ (setup_control_address T (inet_ntop T s.peer_address.sin_addr)
            s.peer_address.sin_port s.address.sin_port).sun_path)
    (h0 : 0 ≤ w.env w.log.length) (hfree : (w.fdtab (w.env w.log.length)).isNone = true)
    (h1 : Int.ofNat T.sizeof_saved ≤ w.env (w.log.length + 1))
    (h2 : 0 ≤ w.env (w.log.length + 2)) :
    ∃ s1 w1 bs, teardown_state T w s = Except.ok (s1, w1) ∧
      w1.files f = some bs ∧ bs.length = T.sizeof_saved ∧
      (∀ i, i < T.sizeof_saved → bs[i]? = some (x (T.saved + i))) ∧
      (∀ (w2 : World) (r : state) (g : String) (m0 : Region),
        r.recovery_file = some g → w2.files g = some bs →
        w2.mem r.tcpr.state = some m0 →
        0 ≤ w2.env w2.log.length → (w2.fdtab (w2.env w2.log.length)).isNone = true →
        0 ≤ w2.env (w2.log.length + 1) → 0 ≤ w2.env (w2.log.length + 2) →
        ∃ w3 m, update_state_recover T w2 r = Except.ok w3 ∧
          (r.output_bytes = 0 → r.input_bytes = 0 → update_state T w2 r = Except.ok w3) ∧
          w3.mem r.tcpr.state = some m ∧
          (∀ i, i < T.sizeof_saved → m (T.saved + i) = x (T.saved + i)) ∧
          (∀ i, i < T.saved ∨ T.saved + T.sizeof_saved ≤ i → m i = m0 i) ∧
          (m0 = zero_region → filter_state_zero T m)) ∧
      (∀ (w2 : World) (r : state) (g : String) (bs' : List Byte),
        r.recovery_file = some g → w2.files g = some bs' → bs'.length < T.sizeof_saved →
        update_state T w2 r = Except.error Fault.exit_failure) := by
  obtain ⟨w1, e1, hfile, -, -⟩ := teardown_state_save_ok T w s x f hx hsave h0 hfree h1 h2
  have hfile' : ∀ (w' : World), teardown_state T w s = Except.ok
      ({ s with tcpr := (tcpr_teardown_connection T w1 s.tcpr).1 }, w') →
      w'.files f = some (block x T.saved T.sizeof_saved) := by
    intro w' hw'
    simp only [teardown_state, e1] at hw'
    by_cases hd : s.destroy ≠ 0
    · rw [if_pos hd] at hw'
      have := (Prod.mk.inj (Except.ok.inj hw')).2
      rw [← this, tcpr_destroy_connection_files T _ _ _ _ f (hkeep hd).1 (hkeep hd).2,
        tcpr_teardown_connection_files]
      exact hfile
    · rw [if_neg hd] at hw'
      have := (Prod.mk.inj (Except.ok.inj hw')).2
      rw [← this, tcpr_teardown_connection_files]
      exact hfile
  have hrun : ∃ w', teardown_state T w s = Except.ok
      ({ s with tcpr := (tcpr_teardown_connection T w1 s.tcpr).1 }, w') := by
    simp only [teardown_state, e1]
    by_cases hd : s.destroy ≠ 0
    · rw [if_pos hd]; exact ⟨_, rfl⟩
    · rw [if_neg hd]; exact ⟨_, rfl⟩
  obtain ⟨w', hw'⟩ := hrun
  refine ⟨_, w', block x T.saved T.sizeof_saved, hw', hfile' w' hw', block_length _ _ _,
    fun i hi => block_getElem? x T.saved T.sizeof_saved i hi, ?_, ?_⟩
  · intro w2 r g m0 hrec hg hm g0 gfree g1 g2
    obtain ⟨w3, e3, hm3⟩ := update_state_recover_ok T w2 r g _ m0 hrec hg
      (block_length _ _ _) hm g0 gfree g1 g2
    refine ⟨w3, _, e3, ?_, hm3, ?_, ?_, ?_⟩
    · intro ho hi
      obtain ⟨eo, ei⟩ := update_state_idle T w3 r ho hi
      simp only [update_state, e3, eo, ei]
    · intro i hi
      have hi' : i < (block x T.saved T.sizeof_saved).length := by
        rw [block_length]; exact hi
      rw [blit_inside m0 T.saved _ i hi', block_getElem]
    · intro i hi
      exact blit_outside _ _ _ _ (by rw [block_length]; exact hi)
    · intro hz
      apply filter_state_zero_of_outside T hT
      intro i hi
      rw [blit_outside _ _ _ _ (by rw [block_length]; exact hi), hz]
      rfl
  · intro w2 r g bs' hrec hg hlen
    simp only [update_state, update_state_recover_short T w2 r g bs' hrec hg hlen]

theorem save_recover_roundtrip_witness :
    linux_le.WF ∧
    (demo_world demo_checkpointed no_files).mem demo_handle.state = some demo_checkpointed ∧
    0 ≤ env_fresh 0 ∧
    ((demo_world demo_checkpointed no_files).fdtab (env_fresh 0)).isNone = true ∧
    Int.ofNat linux_le.sizeof_saved ≤ env_fresh 1 ∧
    0 ≤ env_fresh 2 ∧
    (∃ s1 w1,
      teardown_state linux_le (demo_world demo_checkpointed no_files)
          { demo_state with save_file := some "checkpoint", destroy := 1 }
        = Except.ok (s1, w1) ∧
      w1.files "checkpoint" = some [1, 2, 3, 4, 5, 6, 7, 8, 0, 0, 0, 0, 1, 0, 0, 0]) ∧
    (∃ w3 m,
      update_state linux_le
          (demo_world zero_region (fun p =>
            if p = "checkpoint" then some [1, 2, 3, 4, 5, 6, 7, 8, 0, 0, 0, 0, 1, 0, 0, 0]
            else none))
          { demo_state with recovery_file := some "checkpoint" } = Except.ok w3 ∧
        w3.mem demo_handle.state = some m ∧
        [m 0, m 1, m 2, m 3, m 4, m 5, m 6, m 7, m 8, m 9, m 10, m 11, m 12, m 13, m 14, m 15]
          = [1, 2, 3, 4, 5, 6, 7, 8, 0, 0, 0, 0, 1, 0, 0, 0] ∧
        filter_state_zero linux_le m) := by
  refine ⟨by decide, rfl, by decide, by decide, by decide, by decide, ?_⟩
  obtain ⟨s1, w1, bs, h1, h2, hlen, hbytes, hrec, -⟩ := save_recover_roundtrip linux_le
    (by decide) (demo_world demo_checkpointed no_files)
    { demo_state with save_file := some "checkpoint", destroy := 1 } demo_checkpointed
    "checkpoint" rfl rfl (fun _ => by decide) (by decide) (by decide) (by decide) (by decide)
  have hbs : bs = [1, 2, 3, 4, 5, 6, 7, 8, 0, 0, 0, 0, 1, 0, 0, 0] := by
    apply List.ext_getElem?
    intro i
    by_cases hi : i < 16
    · rw [hbytes i hi]
      interval_cases i <;> decide
    · have hi' : 16 ≤ i := by omega
      rw [List.getElem?_eq_none (by rw [hlen]; exact hi'),
        List.getElem?_eq_none (by simpa using hi')]
  subst hbs
  refine ⟨⟨s1, w1, h1, h2⟩, ?_⟩
  obtain ⟨w3, m, -, hrun, hm, hin, -, hzero⟩ := hrec
    (demo_world zero_region (fun p =>
      if p = "checkpoint" then some [1, 2, 3, 4, 5, 6, 7, 8, 0, 0, 0, 0, 1, 0, 0, 0]
      else none))
    { demo_state with recovery_file := some "checkpoint" } "checkpoint" zero_region rfl rfl rfl
    (by decide) (by decide) (by decide) (by decide)
  have e : ∀ i, i < 16 → m i = demo_checkpointed i := fun i hi => by
    have := hin i hi
    simpa [linux_le] using this
  refine ⟨w3, m, hrun rfl rfl, hm, ?_, hzero rfl⟩
  rw [e 0 (by decide), e 1 (by decide), e 2 (by decide), e 3 (by decide), e 4 (by decide),
    e 5 (by decide), e 6 (by decide), e 7 (by decide), e 8 (by decide), e 9 (by decide),
    e 10 (by decide), e 11 (by decide), e 12 (by decide), e 13 (by decide), e 14 (by decide),
    e 15 (by decide)]
  decide

/-! ## The sentinel `all` of the administrative tool -/

/-- C10, at the failing input: the option `all` is stored as `INT_MAX`; on a
record with 2147483648 bytes of input outstanding `update_state` with that
option checkpoints 2147483647 of them and leaves `tcpr_input_bytes` at 1, and
likewise for output. -/
theorem all_sentinel_stops_at_int_max :
    handle_options (fun _ => 0) demo_state [('I', "all")]
      = some { demo_state with input_bytes := INT_MAX } ∧
    handle_options (fun _ => 0) demo_state [('O', "all")]
      = some { demo_state with output_bytes := INT_MAX } ∧
    tcpr_input_bytes linux_le (demo_world (demo_record 0 0 2147483648 0) no_files) demo_handle
      = some 2147483648 ∧
    (∃ w', update_state linux_le (demo_world (demo_record 0 0 2147483648 0) no_files)
        { demo_state with input_bytes := INT_MAX } = Except.ok w' ∧
      tcpr_input_bytes linux_le w' demo_handle = some 1) ∧
    tcpr_output_bytes linux_le (demo_world (demo_record 0 0 0 2147483648) no_files) demo_handle
      = some 2147483648 ∧
    (∃ w', update_state linux_le (demo_world (demo_record 0 0 0 2147483648) no_files)
        { demo_state with output_bytes := INT_MAX } = Except.ok w' ∧
      tcpr_output_bytes linux_le w' demo_handle = some 1) := by
  refine ⟨by decide, by decide, by decide, ⟨_, rfl, by decide⟩, by decide, ⟨_, rfl, by decide⟩⟩

/-- Where the sentinel does reach: a record with at most `INT_MAX` bytes of
input outstanding has none left after `update_state` with the input option
`all`. -/
theorem all_sentinel_within_int_max (T : Target) (hT : T.WF) (w : World) (s : state)
    (m : Region) (hm : w.mem s.tcpr.state = some m) (hrec : s.recovery_file = none)
    (ho : s.output_bytes = 0) (hi : s.input_bytes = INT_MAX)
    (hle : (ntohl T (load32 T m T.ack) + UINT32_MOD - ntohl T (load32 T m T.saved_ack))
      % UINT32_MOD ≤ 2147483647) :
    ∃ w', update_state T w s = Except.ok w' ∧ tcpr_input_bytes T w' s.tcpr = some 0 := by
  have sep := hT.separated
  simp only [ntohl_load32, UINT32_MOD] at hle
  have h1 := be32_lt m T.ack
  have h2 := be32_lt m T.saved_ack
  have e1 : update_state_recover T w s = Except.ok w := by
    simp only [update_state_recover, hrec]
  have e2 : update_state_output T w s = Except.ok w := by
    simp [update_state_output, ho]
  have hnot : ¬ (2147483647 : Int).toNat
      < (be32 m T.ack + 4294967296 - be32 m T.saved_ack) % 4294967296 := by
    have : (2147483647 : Int).toNat = 2147483647 := by decide
    omega
  have e3 : update_state_input T w s = Except.ok
      { w with
        mem := Function.update w.mem s.tcpr.state
          (some (put_be32 m T.saved_ack ((be32 m T.saved_ack
            + (be32 m T.ack + 4294967296 - be32 m T.saved_ack) % 4294967296) % 4294967296))),
        log := w.log ++ [Event.sendto s.tcpr.control_socket s.tcpr.control_address.sun_path 3
          (w.env w.log.length)] } := by
    simp only [update_state_input, hi, INT_MAX, tcpr_input_bytes_eq T w s.tcpr m hm]
    rw [if_neg (by decide), if_pos (by decide), if_neg hnot,
      tcpr_checkpoint_input_eq T w s.tcpr m _ hm]
    rfl
  have e4 := e3
  refine ⟨_, (by simp only [update_state, e1, e2]; exact e4), ?_⟩
  rw [tcpr_input_bytes_eq T _ s.tcpr _ (Function.update_same s.tcpr.state _ w.mem),
    be32_put_be32, be32_put_be32_other _ _ _ _ sep.sack_ack]
  congr 1
  omega

/-! ## Rendezvous naming -/

theorem digitChar_facts :
    ∀ d, d < 10 → digit_value (Nat.digitChar d) = d ∧ Nat.digitChar d ≠ '-' ∧
      Nat.digitChar d ≠ '.' := by
  decide

theorem toDigitsCore_append (fuel : Nat) : ∀ (n : Nat) (acc : List Char),
    Nat.toDigitsCore 10 fuel n acc = Nat.toDigitsCore 10 fuel n [] ++ acc := by
  induction fuel with
  | zero => intro n acc; simp [Nat.toDigitsCore]
  | succ f ih =>
    intro n acc
    simp only [Nat.toDigitsCore]
    split
    · simp
    · rw [ih (n / 10) (Nat.digitChar (n % 10) :: acc), ih (n / 10) [Nat.digitChar (n % 10)]]
      simp

theorem decimal_value_snoc (l : List Char) (c : Char) :
    decimal_value (l ++ [c]) = 10 * decimal_value l + digit_value c := by
  simp [decimal_value, List.foldl_append]

theorem decimal_value_toDigitsCore (fuel : Nat) : ∀ n, n < fuel →
    decimal_value (Nat.toDigitsCore 10 fuel n []) = n := by
  induction fuel with
  | zero => intro n h; omega
  | succ f ih =>
    intro n h
    have hd := (digitChar_facts (n % 10) (Nat.mod_lt _ (by decide))).1
    simp only [Nat.toDigitsCore]
    split
    · rename_i h0
      have := decimal_value_snoc [] (Nat.digitChar (n % 10))
      simp only [List.nil_append] at this
      rw [this, hd]
      simp only [decimal_value, List.foldl_nil]
      omega
    · rename_i h0
      rw [toDigitsCore_append, decimal_value_snoc, ih (n / 10) (by omega), hd]
      omega

theorem toDigits_injective (a b : Nat) (h : Nat.toDigits 10 a = Nat.toDigits 10 b) : a = b := by
  have ha := decimal_value_toDigitsCore (a + 1) a (by omega)
  have hb := decimal_value_toDigitsCore (b + 1) b (by omega)
  unfold Nat.toDigits at h
  rw [h] at ha
  omega

theorem toDigitsCore_chars (fuel : Nat) : ∀ (n : Nat) (acc : List Char) (c : Char),
    c ∈ Nat.toDigitsCore 10 fuel n acc → c ∈ acc ∨ (c ≠ '-' ∧ c ≠ '.') := by
  induction fuel with
  | zero => intro n acc c h; exact Or.inl h
  | succ f ih =>
    intro n acc c h
    have hd := (digitChar_facts (n % 10) (Nat.mod_lt _ (by decide))).2
    simp only [Nat.toDigitsCore] at h
    split at h
    · rcases List.mem_cons.mp h with h | h
      · exact Or.inr (h ▸ hd)
      · exact Or.inl h
    · rcases ih _ _ c h with h | h
      · rcases List.mem_cons.mp h with h | h
        · exact Or.inr (h ▸ hd)
        · exact Or.inl h
      · exact Or.inr h

theorem toDigits_no_dash (n : Nat) : '-' ∉ Nat.toDigits 10 n := by
  intro h
  rcases toDigitsCore_chars _ _ _ _ h with h | h
  · simp at h
  · exact h.1 rfl

theorem toDigits_no_dot (n : Nat) : '.' ∉ Nat.toDigits 10 n := by
  intro h
  rcases toDigitsCore_chars _ _ _ _ h with h | h
  · simp at h
  · exact h.2 rfl

theorem split_sep {α : Type} (sep : α) : ∀ (xs xs' ys ys' : List α),
    xs ++ sep :: ys = xs' ++ sep :: ys' → sep ∉ xs → sep ∉ xs' → xs = xs' ∧ ys = ys' := by
  intro xs
  induction xs with
  | nil =>
    intro xs' ys ys' h _ hx'
    cases xs' with
    | nil => simpa using h
    | cons b t =>
      simp only [List.nil_append, List.cons_append, List.cons.injEq] at h
      exact absurd (h.1 ▸ List.mem_cons_self _ _) hx'
  | cons a t ih =>
    intro xs' ys ys' h hx hx'
    cases xs' with
    | nil =>
      simp only [List.nil_append, List.cons_append, List.cons.injEq] at h
      exact absurd (h.1 ▸ List.mem_cons_self _ _) hx
    | cons b t' =>
      simp only [List.cons_append, List.cons.injEq] at h
      obtain ⟨e1, e2⟩ := ih t' ys ys' h.2 (fun hm => hx (List.mem_cons_of_mem _ hm))
        (fun hm => hx' (List.mem_cons_of_mem _ hm))
      exact ⟨by rw [h.1, e1], e2⟩

theorem state_path_format_data (h : String) (a b : Nat) :
    (state_path_format h (Int.ofNat a) (Int.ofNat b)).data =
      "/var/tmp/tcpr-".data ++ (h.data ++ '-' :: (Nat.toDigits 10 a ++ '-' ::
        (Nat.toDigits 10 b ++ ".state".data))) := by
  simp [state_path_format, printf_d, Nat.repr, String.data_append, List.asString]

theorem control_path_format_data (h : String) (a b : Nat) :
    (control_path_format h (Int.ofNat a) (Int.ofNat b)).data =
      "/var/tmp/tcpr-".data ++ (h.data ++ '-' :: (Nat.toDigits 10 a ++ '-' ::
        (Nat.toDigits 10 b ++ ".ctl".data))) := by
  simp [control_path_format, printf_d, Nat.repr, String.data_append, List.asString]

theorem inet_ntop_data (T : Target) (x : Nat) :
    (inet_ntop T x).data =
      Nat.toDigits 10 (ntohl T x / 16777216 % 256) ++ '.' ::
        (Nat.toDigits 10 (ntohl T x / 65536 % 256) ++ '.' ::
          (Nat.toDigits 10 (ntohl T x / 256 % 256) ++ '.' ::
            Nat.toDigits 10 (ntohl T x % 256))) := by
  simp [inet_ntop, Nat.repr, String.data_append, List.asString]

theorem ntohl_lt (T : Target) (x : Nat) (h : x < 4294967296) : ntohl T x < 4294967296 := by
  unfold ntohl
  split
  · exact bswap32_lt x
  · exact h

theorem ntohl_injective (T : Target) (x y : Nat) (hx : x < 4294967296) (hy : y < 4294967296)
    (h : ntohl T x = ntohl T y) : x = y := by
  unfold ntohl at h
  split at h
  · rw [← bswap32_bswap32 x hx, ← bswap32_bswap32 y hy, h]
  · exact h

theorem ntohs_injective (T : Target) (x y : Nat) (hx : x < 65536) (hy : y < 65536)
    (h : ntohs T x = ntohs T y) : x = y := by
  unfold ntohs at h
  split at h
  · rw [← bswap16_bswap16 x hx, ← bswap16_bswap16 y hy, h]
  · exact h

theorem inet_ntop_no_dash (T : Target) (x : Nat) : '-' ∉ (inet_ntop T x).data := by
  rw [inet_ntop_data]
  simp only [List.mem_append, List.mem_cons, not_or]
  exact ⟨toDigits_no_dash _, by decide, toDigits_no_dash _, by decide, toDigits_no_dash _,
    by decide, toDigits_no_dash _⟩

theorem inet_ntop_injective (T : Target) (x y : Nat) (hx : x < 4294967296)
    (hy : y < 4294967296) (h : inet_ntop T x = inet_ntop T y) : x = y := by
  have hd := congrArg String.data h
  rw [inet_ntop_data, inet_ntop_data] at hd
  obtain ⟨e3, hd⟩ := split_sep '.' _ _ _ _ hd (toDigits_no_dot _) (toDigits_no_dot _)
  obtain ⟨e2, hd⟩ := split_sep '.' _ _ _ _ hd (toDigits_no_dot _) (toDigits_no_dot _)
  obtain ⟨e1, e0⟩ := split_sep '.' _ _ _ _ hd (toDigits_no_dot _) (toDigits_no_dot _)
  have n3 := toDigits_injective _ _ e3
  have n2 := toDigits_injective _ _ e2
  have n1 := toDigits_injective _ _ e1
  have n0 := toDigits_injective _ _ e0
  have bx := ntohl_lt T x hx
  have by1 := ntohl_lt T y hy
  exact ntohl_injective T x y hx hy (by omega)

/-- Two paths built from the same format agree only when the host text and both
numbers agree. -/
theorem path_data_injective (pre suf h h' : List Char) (a a' b b' : Nat)
    (hh : '-' ∉ h) (hh' : '-' ∉ h')
    (e : pre ++ (h ++ '-' :: (Nat.toDigits 10 a ++ '-' :: (Nat.toDigits 10 b ++ suf)))
       = pre ++ (h' ++ '-' :: (Nat.toDigits 10 a' ++ '-' :: (Nat.toDigits 10 b' ++ suf)))) :
    h = h' ∧ a = a' ∧ b = b' := by
  have e1 := List.append_cancel_left e
  obtain ⟨eh, e2⟩ := split_sep '-' _ _ _ _ e1 hh hh'
  obtain ⟨ea, e3⟩ := split_sep '-' _ _ _ _ e2 (toDigits_no_dash _) (toDigits_no_dash _)
  have eb := List.append_cancel_right e3
  exact ⟨eh, toDigits_injective _ _ ea, toDigits_injective _ _ eb⟩

theorem state_ne_control_data (pre h h' : List Char) (a a' b b' : Nat)
    (hh : '-' ∉ h) (hh' : '-' ∉ h') :
    pre ++ (h ++ '-' :: (Nat.toDigits 10 a ++ '-' :: (Nat.toDigits 10 b ++ ".state".data)))
      ≠ pre ++ (h' ++ '-' :: (Nat.toDigits 10 a' ++ '-' :: (Nat.toDigits 10 b' ++ ".ctl".data))) := by
  intro e
  have e1 := List.append_cancel_left e
  obtain ⟨-, e2⟩ := split_sep '-' _ _ _ _ e1 hh hh'
  obtain ⟨-, e3⟩ := split_sep '-' _ _ _ _ e2 (toDigits_no_dash _) (toDigits_no_dash _)
  have e4 := congrArg List.reverse e3
  simp only [List.reverse_append] at e4
  have e5 : (".state".data.reverse ++ (Nat.toDigits 10 b).reverse).head?
      = (".ctl".data.reverse ++ (Nat.toDigits 10 b').reverse).head? := by rw [e4]
  have e6 : some 'e' = some 'l' := e5
  exact absurd e6 (by decide)

/-- C5: for two keys whose address is below 2^32 and whose ports are below
65536, equal state paths, or equal control paths, force equal keys; and the
state path of one key is never the control path of another. -/
theorem rendezvous_paths_injective (T : Target) (a pp p a' pp' p' : Nat)
    (ha : a < 4294967296) (hpp : pp < 65536) (hp : p < 65536)
    (ha' : a' < 4294967296) (hpp' : pp' < 65536) (hp' : p' < 65536) :
    (state_path T (inet_ntop T a) pp p = state_path T (inet_ntop T a') pp' p' →
      a = a' ∧ pp = pp' ∧ p = p') ∧
    ((setup_control_address T (inet_ntop T a) pp p).sun_path
        = (setup_control_address T (inet_ntop T a') pp' p').sun_path →
      a = a' ∧ pp = pp' ∧ p = p') ∧
    state_path T (inet_ntop T a) pp p
      ≠ (setup_control_address T (inet_ntop T a') pp' p').sun_path := by
  have key : ∀ {h h' : String} {x x' y y' : Nat}, h.data = h'.data ∧ x = x' ∧ y = y' →
      h = inet_ntop T a → h' = inet_ntop T a' → x = ntohs T pp → x' = ntohs T pp' →
      y = ntohs T p → y' = ntohs T p' → a = a' ∧ pp = pp' ∧ p = p' := by
    intro h h' x x' y y' ⟨e1, e2, e3⟩ k1 k2 k3 k4 k5 k6
    subst k1 k2 k3 k4 k5 k6
    exact ⟨inet_ntop_injective T a a' ha ha' (String.ext e1),
      ntohs_injective T pp pp' hpp hpp' e2, ntohs_injective T p p' hp hp' e3⟩
  refine ⟨fun h => ?_, fun h => ?_, fun h => ?_⟩
  · have hd := congrArg String.data h
    simp only [state_path, state_path_format_data] at hd
    exact key (path_data_injective _ _ _ _ _ _ _ _ (inet_ntop_no_dash T a)
      (inet_ntop_no_dash T a') hd) rfl rfl rfl rfl rfl rfl
  · have hd := congrArg String.data h
    simp only [setup_control_address, control_path_format_data] at hd
    exact key (path_data_injective _ _ _ _ _ _ _ _ (inet_ntop_no_dash T a)
      (inet_ntop_no_dash T a') hd) rfl rfl rfl rfl rfl rfl
  · have hd := congrArg String.data h
    simp only [state_path, setup_control_address, state_path_format_data,
      control_path_format_data] at hd
    exact state_ne_control_data _ _ _ _ _ _ _ (inet_ntop_no_dash T a)
      (inet_ntop_no_dash T a') hd

theorem rendezvous_paths_injective_witness :
    (16777343 : Nat) < 4294967296 ∧ htons linux_le 9999 < 65536 ∧ htons linux_le 8888 < 65536 ∧
    (33554559 : Nat) < 4294967296 ∧
    state_path linux_le (inet_ntop linux_le 16777343) (htons linux_le 9999)
        (htons linux_le 8888)
      ≠ (setup_control_address linux_le (inet_ntop linux_le 33554559) (htons linux_le 9999)
        (htons linux_le 8888)).sun_path :=
  ⟨by decide, by decide, by decide, by decide,
    (rendezvous_paths_injective linux_le 16777343 (htons linux_le 9999) (htons linux_le 8888)
      33554559 (htons linux_le 9999) (htons linux_le 8888) (by decide) (by decide) (by decide)
      (by decide) (by decide) (by decide)).2.2⟩

theorem path_in_directory (h a b suf : String) :
    "/var/tmp/tcpr-" ++ h ++ "-" ++ a ++ "-" ++ b ++ suf
      = "/var/tmp/" ++ ("tcpr-" ++ h ++ "-" ++ a ++ "-" ++ b ++ suf) := by
  apply String.ext
  simp [String.data_append]

/-- C6: the state path is the name `tcpr-<H>-<P>-<L>.state` and the control path
the name `tcpr-<H>-<P>-<L>.ctl`, each in the directory `/var/tmp/` that both
format strings fix, where `H` is the four bytes of the peer address in decimal,
separated by dots, and `P` and `L` are the decimal digits, with no sign, of the
peer port and the local port after `ntohs`. `tcpr_setup_connection` opens no
other file than the state path, and when it returns 0 it has opened it and the
handle holds the control path; `tcpr_destroy_connection` unlinks exactly these
two paths. -/
theorem rendezvous_paths_format (T : Target) (w : World) (c : tcpr_connection)
    (peer_address peer_port port flags : Nat) :
    inet_ntop T peer_address
      = Nat.repr (ntohl T peer_address / 16777216 % 256) ++ "." ++
        Nat.repr (ntohl T peer_address / 65536 % 256) ++ "." ++
        Nat.repr (ntohl T peer_address / 256 % 256) ++ "." ++
        Nat.repr (ntohl T peer_address % 256) ∧
    state_path T (inet_ntop T peer_address) peer_port port
      = "/var/tmp/" ++ ("tcpr-" ++ inet_ntop T peer_address ++ "-"
          ++ Nat.repr (ntohs T peer_port) ++ "-" ++ Nat.repr (ntohs T port) ++ ".state") ∧
    (setup_control_address T (inet_ntop T peer_address) peer_port port).sun_path
      = "/var/tmp/" ++ ("tcpr-" ++ inet_ntop T peer_address ++ "-"
          ++ Nat.repr (ntohs T peer_port) ++ "-" ++ Nat.repr (ntohs T port) ++ ".ctl") ∧
    (∃ evs,
      (tcpr_setup_connection T w c peer_address peer_port port flags).2.2.log = w.log ++ evs ∧
      (∀ path cr fd, Event.open_file path cr fd ∈ evs →
        path = state_path T (inet_ntop T peer_address) peer_port port) ∧
      ((tcpr_setup_connection T w c peer_address peer_port port flags).1 = 0 →
        (tcpr_setup_connection T w c peer_address peer_port port flags).2.1.control_address
          = setup_control_address T (inet_ntop T peer_address) peer_port port ∧
        ∃ cr fd, Event.open_file (state_path T (inet_ntop T peer_address) peer_port port) cr fd
          ∈ evs)) ∧
    (tcpr_destroy_connection T w peer_address peer_port port).log
      = w.log ++ [Event.unlink (state_path T (inet_ntop T peer_address) peer_port port),
          Event.unlink
            (setup_control_address T (inet_ntop T peer_address) peer_port port).sun_path] := by
  obtain ⟨evs, h1, -, -, -, h5, h6⟩ :=
    setup_connection_facts T w c peer_address peer_port port flags
  refine ⟨rfl, path_in_directory _ _ _ _, path_in_directory _ _ _ _, ⟨evs, h1, h5, h6⟩, ?_⟩
  simp [tcpr_destroy_connection, sys_unlink, state_path, setup_control_address]

theorem rendezvous_paths_format_witness :
    state_path linux_le (inet_ntop linux_le 16777343) (htons linux_le 9999)
        (htons linux_le 8888)
      = "/var/tmp/" ++ "tcpr-127.0.0.1-9999-8888.state" ∧
    (setup_control_address linux_le (inet_ntop linux_le 16777343) (htons linux_le 9999)
        (htons linux_le 8888)).sun_path
      = "/var/tmp/" ++ "tcpr-127.0.0.1-9999-8888.ctl" ∧
    (tcpr_destroy_connection linux_le (world_empty env_fresh) 16777343 (htons linux_le 9999)
        (htons linux_le 8888)).log
      = [Event.unlink ("/var/tmp/" ++ "tcpr-127.0.0.1-9999-8888.state"),
          Event.unlink ("/var/tmp/" ++ "tcpr-127.0.0.1-9999-8888.ctl")] := by
  have h := rendezvous_paths_format linux_le (world_empty env_fresh) blank_handle 16777343
    (htons linux_le 9999) (htons linux_le 8888) 0
  have n1 : "tcpr-" ++ inet_ntop linux_le 16777343 ++ "-"
      ++ Nat.repr (ntohs linux_le (htons linux_le 9999)) ++ "-"
      ++ Nat.repr (ntohs linux_le (htons linux_le 8888)) ++ ".state"
      = "tcpr-127.0.0.1-9999-8888.state" := by decide
  have n2 : "tcpr-" ++ inet_ntop linux_le 16777343 ++ "-"
      ++ Nat.repr (ntohs linux_le (htons linux_le 9999)) ++ "-"
      ++ Nat.repr (ntohs linux_le (htons linux_le 8888)) ++ ".ctl"
      = "tcpr-127.0.0.1-9999-8888.ctl" := by decide
  have e1 := h.2.1
  have e2 := h.2.2.1
  rw [n1] at e1
  rw [n2] at e2
  refine ⟨e1, e2, ?_⟩
  rw [h.2.2.2.2, e1, e2]
  rfl

end TCPR
